import Mathlib

/-!
Shallow embedding of the inbound SMTP connection engine of the `goms`
repository (`goms/inboundconnection.go`): the response data model, the
DATA-phase body framer, recipient address canonicalisation, command
dispatch, and the buffered response writer.

Body bytes are modelled as `Nat` (CR = 13, LF = 10, '.' = 46); command
lines and addresses are modelled as `List Char` / `String` (the Go code
works on UTF-8 byte strings; the ASCII-only operations used by the
engine — upper/lower casing of ASCII letters and matching against the
ASCII character classes of its regexps — are modelled on characters,
which agrees with the byte-level behaviour on the ASCII range).
-/

/-- One line of an SMTP response (`ICResponseLine` in the source). -/
structure ICResponseLine where
  code : Nat
  text : String
deriving Repr, DecidableEq

/-- A possibly multiline SMTP response (`ICResponse` in the source). -/
structure ICResponse where
  lines : List ICResponseLine
  final : Bool
  canPipeline : Bool
deriving Repr, DecidableEq

/-- `ICResponse.IsError`: true iff there is a first line and its code is
in 400..599 (translation of `IsError` in the source). -/
def ICResponse.IsError (r : ICResponse) : Bool :=
  match r.lines with
  | [] => false
  | l :: _ => decide (400 ≤ l.code ∧ l.code ≤ 599)

/-- The CRLF byte pair, `crlf := []byte("\r\n")` in `doDATA`. -/
def crlf : List Nat := [13, 10]

/-- `bytes.HasSuffix(l, crlf)`: does `l` end with CR LF? -/
def hasSuffixCRLF (l : List Nat) : Bool :=
  match l.reverse with
  | b :: a :: _ => a == 13 && b == 10
  | _ => false

/-- The state of the `doDATA` read loop: the accumulated `body` buffer,
the `startOfLine` flag and the `oversize` flag (local variables of
`doDATA` in the source). -/
structure FramerState where
  body : List Nat
  startOfLine : Bool
  oversize : Bool
deriving Repr, DecidableEq

/-- Dot-stripping applied to a just-read line: if the framer is at a
start-of-line boundary and the first byte is '.', drop it
(`buf = buf[1:]` under `lineStartsWithDot` in the source). -/
def stripLine (startOfLine : Bool) (buf : List Nat) : List Nat :=
  if (buf.head? == some 46) && startOfLine then buf.tail else buf

/-- The soft-threshold test of the `doDATA` loop: not yet oversize and
appending the (dot-stripped) line would take the stored body past
`MaxMessageSize + 1024` bytes. -/
def framerTrigger (maxMessageSize : Nat) (st : FramerState) (buf : List Nat) : Bool :=
  !st.oversize && decide (maxMessageSize + 1024 < buf.length + st.body.length)

/-- The body after the soft-threshold check: `body.Reset()` exactly when
the threshold was crossed this iteration. -/
def framerBody1 (maxMessageSize : Nat) (st : FramerState) (buf : List Nat) : List Nat :=
  if framerTrigger maxMessageSize st buf then [] else st.body

/-- The oversize flag after the soft-threshold check. -/
def framerOversize (maxMessageSize : Nat) (st : FramerState) (buf : List Nat) : Bool :=
  st.oversize || framerTrigger maxMessageSize st buf

/-- The body after `if !oversize { body.Write(buf) }`. -/
def framerAppend (maxMessageSize : Nat) (st : FramerState) (buf : List Nat) : List Nat :=
  if framerOversize maxMessageSize st buf then framerBody1 maxMessageSize st buf
  else framerBody1 maxMessageSize st buf ++ buf

/-- The terminator test of the source: `startOfLine && lineStartsWithDot
&& len(buf) == len(crlf) && (HasSuffix(body, crlf) || body.Len() == 0)`,
taken after the soft-threshold check. -/
def isTerminator (maxMessageSize : Nat) (st : FramerState) (buf : List Nat)
    (lineStartsWithDot : Bool) : Bool :=
  st.startOfLine && lineStartsWithDot && (buf.length == crlf.length) &&
    (hasSuffixCRLF (framerBody1 maxMessageSize st buf) ||
      (framerBody1 maxMessageSize st buf).isEmpty)

/-- One iteration of the `doDATA` read loop on a successfully read chunk
`buf0`.  Returns the new state and `true` iff the loop `break`s (the
chunk was the end-of-data terminator).  Mirrors the source: the
`len(buf) == 0` continue, dot-stripping, the `MaxMessageSize+1024` soft
threshold with `body.Reset()` (`framerTrigger`/`framerBody1`/
`framerOversize`), the bare-LF append-and-continue branch, and the
terminator test (`isTerminator`). -/
def dataStep (maxMessageSize : Nat) (st : FramerState) (buf0 : List Nat) :
    FramerState × Bool :=
  if buf0 = [] then (st, false)
  else if !(hasSuffixCRLF (stripLine st.startOfLine buf0)) then
    (⟨framerAppend maxMessageSize st (stripLine st.startOfLine buf0), false,
      framerOversize maxMessageSize st (stripLine st.startOfLine buf0)⟩, false)
  else if isTerminator maxMessageSize st (stripLine st.startOfLine buf0)
      ((buf0.head? == some 46) && st.startOfLine) then
    (⟨framerBody1 maxMessageSize st (stripLine st.startOfLine buf0), st.startOfLine,
      framerOversize maxMessageSize st (stripLine st.startOfLine buf0)⟩, true)
  else
    (⟨framerAppend maxMessageSize st (stripLine st.startOfLine buf0), true,
      framerOversize maxMessageSize st (stripLine st.startOfLine buf0)⟩, false)

/-- Result of one `bufio.Reader.ReadSlice('\n')` call, as used by
`doDATA`.  A successful read (`err == nil`) always yields a chunk ending
in LF; a line longer than the reader's buffer yields the full buffer
together with `bufio.ErrBufferFull` (`fragment`); any other read failure
is `readErr`. -/
inductive ReadResult where
  | ok (chunk : List Nat)
  | fragment (chunk : List Nat)
  | readErr
deriving Repr, DecidableEq

/-- Outcome of the `doDATA` read loop over a stream of read results. -/
inductive FramerOutcome where
  | done (st : FramerState)
  | ioError
  | outOfInput
deriving Repr, DecidableEq

/-- The `doDATA` read loop.  A read error (including `ErrBufferFull` for
an over-long line) makes the handler `return nil, err`, aborting the
session (`ioError`); a terminator `break`s with the final state. -/
def runFramer (maxMessageSize : Nat) (st : FramerState) :
    List ReadResult → FramerOutcome
  | [] => .outOfInput
  | .fragment _ :: _ => .ioError
  | .readErr :: _ => .ioError
  | .ok chunk :: rest =>
    match dataStep maxMessageSize st chunk with
    | (st', true) => .done st'
    | (st', false) => runFramer maxMessageSize st' rest

/-- Splits a wire byte stream into successive `ReadSlice('\n')` results
for a reader with buffer capacity `bufSize`: each successful chunk ends
at the next LF; if `bufSize` bytes accumulate without an LF the read
fails with `ErrBufferFull` and returns the full buffer.  (`curRev` is
the pending line accumulated in reverse; `curLen` its length.)  Trailing
bytes with no LF never complete a read (the connection would block). -/
def chunkAux (bufSize : Nat) (curRev : List Nat) (curLen : Nat) :
    List Nat → List ReadResult
  | [] => []
  | b :: rest =>
    if b == 10 then
      .ok (curRev.reverse ++ [b]) :: chunkAux bufSize [] 0 rest
    else if bufSize ≤ curLen + 1 then
      .fragment (b :: curRev).reverse :: chunkAux bufSize [] 0 rest
    else
      chunkAux bufSize (b :: curRev) (curLen + 1) rest

/-- All `ReadSlice` results for a wire stream, from an empty buffer. -/
def chunkReads (bufSize : Nat) (wire : List Nat) : List ReadResult :=
  chunkAux bufSize [] 0 wire

/-- `552 4.3.4 Error: message too big for system` (source `doDATA`). -/
def msgTooBig : ICResponse :=
  ⟨[⟨552, "4.3.4 Error: message too big for system"⟩], false, false⟩

/-- `250 2.0.0 OK: queued (ID unknown)` (source `doDATA` default). -/
def queuedOK : ICResponse :=
  ⟨[⟨250, "2.0.0 OK: queued (ID unknown)"⟩], false, false⟩

/-- The value a verb handler hands back to the serve loop: `(r, nil)`
becomes `ok r` (a response to send), a non-nil error becomes `abort`
(the serve loop returns without sending anything). -/
inductive HResult where
  | ok (r : ICResponse)
  | abort
deriving Repr, DecidableEq

/-- End of the DATA body phase: `ioAbort` models `return nil, err` on a
read failure, `starved` marks the model running out of wire input, and
`finished processed hr` records the `ProcessMail` argument (if the ITP
was invoked) together with the handler result. -/
inductive DataEnd where
  | ioAbort
  | starved
  | finished (processed : Option (List Nat)) (hr : HResult)
deriving Repr, DecidableEq

/-- The body handed to `ProcessMail`, if the end of data was reached and
the ITP was invoked. -/
def DataEnd.processedArg : DataEnd → Option (List Nat)
  | .finished p _ => p
  | _ => none

/-- The code after the `doDATA` read loop: reject oversize bodies with
552 (no ITP call), otherwise call `ProcessMail` (modelled by `pm`,
returning a possible response and an error flag) and propagate its
result, defaulting to `250 2.0.0 OK: queued (ID unknown)`. -/
def dataFinish (maxMessageSize : Nat)
    (pm : List Nat → Option ICResponse × Bool) (st : FramerState) :
    Option (List Nat) × HResult :=
  if st.oversize || decide (maxMessageSize < st.body.length) then
    (none, .ok msgTooBig)
  else
    match pm st.body with
    | (_, true) => (some st.body, .abort)
    | (some r, false) => (some st.body, .ok r)
    | (none, false) => (some st.body, .ok queuedOK)

/-- The whole DATA body phase after the 354 reply: read and frame the
wire stream through a 4096-byte buffered reader (the size fixed in
`Serve`), then finish as `doDATA` does. -/
def runDATA (maxMessageSize : Nat)
    (pm : List Nat → Option ICResponse × Bool) (wire : List Nat) : DataEnd :=
  match runFramer maxMessageSize ⟨[], true, false⟩ (chunkReads 4096 wire) with
  | .ioError => .ioAbort
  | .outOfInput => .starved
  | .done st =>
    .finished (dataFinish maxMessageSize pm st).1 (dataFinish maxMessageSize pm st).2

/-- Client-side dot-stuffing of a body for the wire: a '.' is doubled
exactly at the positions the framer treats as start of line, i.e. at
position 0 and right after each CR LF pair.  `atStart` says whether the
next byte is at such a position; `prevWasCR` whether the previous byte
was CR. -/
def dotStuffAux (atStart : Bool) (prevWasCR : Bool) : List Nat → List Nat
  | [] => []
  | b :: rest =>
    (if atStart && b == 46 then [46, 46] else [b]) ++
      dotStuffAux (prevWasCR && b == 10) (b == 13) rest

/-- Dot-stuff a whole body (initial position is a start of line). -/
def dotStuff (l : List Nat) : List Nat := dotStuffAux true false l

/-- `linesFit limit cur l = true` iff, continuing a line already `cur`
bytes long, every (LF-terminated or trailing) line of `l` has length at
most `limit` bytes, the LF included. -/
def linesFit (limit : Nat) : Nat → List Nat → Bool
  | _, [] => true
  | cur, b :: rest =>
    if limit < cur + 1 then false
    else if b == 10 then linesFit limit 0 rest
    else linesFit limit (cur + 1) rest

/-- Does the body contain a '.' at position 0 or directly after an LF
(i.e. a line starting with a dot, lines split at every LF)? -/
def hasDotAtLineStartAux (atLineStart : Bool) : List Nat → Bool
  | [] => false
  | b :: rest => (atLineStart && b == 46) || hasDotAtLineStartAux (b == 10) rest

/-- Entry point of `hasDotAtLineStartAux` (position 0 starts a line). -/
def hasDotAtLineStart (l : List Nat) : Bool := hasDotAtLineStartAux true l

/-- Split a character list at the first occurrence of `ch`, returning
the (ch-free) part before it and the part after it. -/
def splitAtChar (ch : Char) : List Char → Option (List Char × List Char)
  | [] => none
  | a :: rest =>
    if a = ch then some ([], rest)
    else (splitAtChar ch rest).map (fun p => (a :: p.1, p.2))

/-- ASCII lower-casing of one character (the domain part of an address
is passed through `strings.ToLower`; the engine's addresses are ASCII). -/
def asciiLower (c : Char) : Char :=
  if 'A' ≤ c ∧ c ≤ 'Z' then Char.ofNat (c.toNat + 32) else c

/-- Match a character list against `([^@:]+)@([^@:]+)$`: exactly one
'@', both sides non-empty and free of '@' and ':'. -/
def parseLocalAtDomain (cs : List Char) : Option (List Char × List Char) :=
  match splitAtChar '@' cs with
  | none => none
  | some (b, c) =>
    if b ≠ [] ∧ c ≠ [] ∧ '@' ∉ c ∧ ':' ∉ b ∧ ':' ∉ c then some (b, c) else none

/-- `CanonicaliseInboundAddress`: anchored match of the source regexp
`([^:]+:)?([^@:]+)@([^@:]+)`; on success the optional source route
before the first ':' is stripped and the domain is lower-cased.  Since
no group may contain ':' except the route (which may not either), the
string can hold at most one ':' and the regexp match is the unique
decomposition computed here. -/
def canonTail (r : List Char) : Option String :=
  match parseLocalAtDomain r with
  | none => none
  | some (b, c) => some (String.mk (b ++ '@' :: c.map asciiLower))

/-- `CanonicaliseInboundAddress` continued: after the optional source
route is split off at the first ':' (the route must be non-empty), the
remainder must match `local@domain` (`canonTail`). -/
def CanonicaliseInboundAddress (s : String) : Option String :=
  match splitAtChar ':' s.data with
  | none => canonTail s.data
  | some (a, r) => if a = [] then none else canonTail r

example : CanonicaliseInboundAddress "route:User@ExAmple.COM" =
    some "User@example.com" := by decide

example : CanonicaliseInboundAddress "a:b:c@d" = none := by decide

example : CanonicaliseInboundAddress "nodomain" = none := by decide

example : dotStuff [46, 104, 13, 10, 46, 13, 10] =
    [46, 46, 104, 13, 10, 46, 46, 13, 10] := by decide

example : dotStuff [97, 10, 46, 98, 13, 10] = [97, 10, 46, 98, 13, 10] := by decide

example : dataStep 100 ⟨[104, 105, 13, 10], true, false⟩ [46, 13, 10] =
    (⟨[104, 105, 13, 10], true, false⟩, true) := by decide

/-- The per-connection fields of `InboundConnection` that the command
handlers read and write: the recipient list, the in-transaction flag,
the reverse path and the unrecognised-command counter. -/
structure ConnState where
  RecipientList : List String
  inTransaction : Bool
  ReversePath : String
  unrecognisedCommands : Nat
deriving Repr, DecidableEq

/-- `reset`: clears the transaction state of a connection. -/
def ConnState.reset (st : ConnState) : ConnState :=
  { st with RecipientList := [], ReversePath := "", inTransaction := false }

/-- A connection state with no open transaction and cleared envelope. -/
def isResetConn (st : ConnState) : Prop :=
  st.inTransaction = false ∧ st.RecipientList = [] ∧ st.ReversePath = ""

/-- The connection parameters the handlers consult. -/
structure InboundConnectionParameters where
  GreetingHostname : String
  MaxMessageSize : Nat
deriving Repr, DecidableEq

/-- An inbound transaction processor: each hook yields an optional
response and an error flag (`true` models a non-nil Go error). -/
structure ITPModel where
  CheckFromAddress : String → Option ICResponse × Bool
  CheckRecipientAddress : String → Option ICResponse × Bool
  ProcessMail : List Nat → Option ICResponse × Bool

/-- `DummyITP`: accepts everything, returns no responses or errors. -/
def DummyITP : ITPModel :=
  ⟨fun _ => (none, false), fun _ => (none, false), fun _ => (none, false)⟩

/-- `maxUnrecognisedCommands` from the source. -/
def maxUnrecognisedCommands : Nat := 20

/-- The `\s` character class of Go's regexp package: `[\t\n\f\r ]`. -/
def isGoSpace (c : Char) : Bool :=
  c == '\t' || c == '\n' || c == '\x0c' || c == '\r' || c == ' '

/-- The `\s*<?([^<>]*)>?.*` part shared by the MAIL and RCPT argument
regexps: skip whitespace, optionally skip one '<', and capture greedily
up to the first '<' or '>' (the tail is ignored). -/
def stripAngleCapture (rest : List Char) : List Char :=
  let r2 := rest.dropWhile isGoSpace
  let r3 := match r2 with
    | '<' :: r => r
    | r => r
  r3.takeWhile (fun c => !(c == '<' || c == '>'))

/-- Match MAIL parameters against `^[Ff][Rr][Oo][Mm]:\s*<?([^<>]*)>?.*`,
returning the captured address characters. -/
def parseFromArg (params : List Char) : Option (List Char) :=
  match params with
  | f :: r :: o :: m :: ':' :: rest =>
    if (f == 'F' || f == 'f') && (r == 'R' || r == 'r') &&
       (o == 'O' || o == 'o') && (m == 'M' || m == 'm') then
      some (stripAngleCapture rest)
    else none
  | _ => none

/-- Match RCPT parameters against `^[Tt][Oo]:\s*<?([^<>]*)>?.*`. -/
def parseToArg (params : List Char) : Option (List Char) :=
  match params with
  | t :: o :: ':' :: rest =>
    if (t == 'T' || t == 't') && (o == 'O' || o == 'o') then
      some (stripAngleCapture rest)
    else none
  | _ => none

/-- `doHELO`: reset, reply `250 <greeting-hostname>`. -/
def doHELO (p : InboundConnectionParameters) (st : ConnState) (_params : List Char) :
    HResult × ConnState :=
  (.ok ⟨[⟨250, p.GreetingHostname⟩], false, false⟩, st.reset)

/-- `doEHLO`: reset, multiline capability reply. -/
def doEHLO (p : InboundConnectionParameters) (st : ConnState) (_params : List Char) :
    HResult × ConnState :=
  (.ok ⟨[⟨250, p.GreetingHostname⟩, ⟨250, "PIPELINING"⟩,
        ⟨250, "ENHANCEDSTATUSCODES"⟩, ⟨250, "8BITMIME"⟩, ⟨250, "SMTPUTF8"⟩,
        ⟨250, "SIZE " ++ toString p.MaxMessageSize⟩], false, false⟩, st.reset)

/-- The success tail of `doMAIL`: open the transaction, record the
reverse path, reply `250 2.1.0 OK` (pipelineable). -/
def mailSuccess (st : ConnState) (a : String) : HResult × ConnState :=
  (.ok ⟨[⟨250, "2.1.0 OK: mail is from '" ++ a ++ "'"⟩], false, true⟩,
   { st with inTransaction := true, ReversePath := a })

/-- `doMAIL`: nested-MAIL check, argument regexp, `CheckFromAddress`
policy gate (an error-coded response is returned as is, a non-nil Go
error aborts), then success. -/
def doMAIL (itp : ITPModel) (st : ConnState) (params : List Char) :
    HResult × ConnState :=
  if st.inTransaction then
    (.ok ⟨[⟨503, "5.5.1 Error: nested MAIL commands"⟩], false, false⟩, st)
  else
    match parseFromArg params with
    | none =>
      (.ok ⟨[⟨550, "5.1.7 Error: bad envelope sender address format"⟩], false, false⟩, st)
    | some a =>
      match itp.CheckFromAddress (String.mk a) with
      | (_, true) => (.abort, st)
      | (some r, false) =>
        if r.IsError then (.ok r, st) else mailSuccess st (String.mk a)
      | (none, false) => mailSuccess st (String.mk a)

/-- The success tail of `doRCPT`: append the canonical recipient, reply
`250 2.1.5 OK` (pipelineable). -/
def rcptSuccess (st : ConnState) (a : String) : HResult × ConnState :=
  (.ok ⟨[⟨250, "2.1.5 OK: mail recipient '" ++ a ++ "'"⟩], false, true⟩,
   { st with RecipientList := st.RecipientList ++ [a] })

/-- `doRCPT`: sequencing check, argument regexp, canonicalisation,
`CheckRecipientAddress` policy gate, then success. -/
def doRCPT (itp : ITPModel) (st : ConnState) (params : List Char) :
    HResult × ConnState :=
  if !st.inTransaction then
    (.ok ⟨[⟨503, "5.5.1 Error: missing MAIL command before RCPT"⟩], false, false⟩, st)
  else
    match parseToArg params with
    | none =>
      (.ok ⟨[⟨550, "5.1.3 Error: bad envelope recepient address component"⟩], false, false⟩, st)
    | some a =>
      match CanonicaliseInboundAddress (String.mk a) with
      | none =>
        (.ok ⟨[⟨550, "5.1.3 Error: bad envelope recepient address format"⟩], false, false⟩, st)
      | some rcptAddress =>
        match itp.CheckRecipientAddress rcptAddress with
        | (_, true) => (.abort, st)
        | (some r, false) =>
          if r.IsError then (.ok r, st) else rcptSuccess st rcptAddress
        | (none, false) => rcptSuccess st rcptAddress

/-- `doDATA`: sequencing and recipient checks, the intermediate 354
send (`sendOk` models whether that `Send` succeeded; on failure the
handler returns the error at once — note the `defer c.reset()` is only
registered after this point), then the body phase; the transaction is
reset on every exit path of the body phase. -/
def doDATA (m : Nat) (itp : ITPModel) (sendOk : Bool) (wire : List Nat)
    (st : ConnState) : HResult × ConnState :=
  if !st.inTransaction then
    (.ok ⟨[⟨503, "5.5.1 Error: missing MAIL command before DATA"⟩], false, false⟩, st)
  else if st.RecipientList.isEmpty then
    (.ok ⟨[⟨553, "5.5.1 Error: no valid recipients"⟩], false, false⟩, st)
  else if !sendOk then (.abort, st)
  else
    match runDATA m itp.ProcessMail wire with
    | .ioAbort => (.abort, st.reset)
    | .starved => (.abort, st.reset)
    | .finished _ hr => (hr, st.reset)

/-- `doRSET`: reset, `250 2.0.0 OK` (pipelineable). -/
def doRSET (st : ConnState) (_params : List Char) : HResult × ConnState :=
  (.ok ⟨[⟨250, "2.0.0 OK"⟩], false, true⟩, st.reset)

/-- `doVRFY`: `502` stub (pipelineable). -/
def doVRFY (st : ConnState) (_params : List Char) : HResult × ConnState :=
  (.ok ⟨[⟨502, "5.5.1 Error: command not implemented"⟩], false, true⟩, st)

/-- `doEXPN`: `502` stub (pipelineable). -/
def doEXPN (st : ConnState) (_params : List Char) : HResult × ConnState :=
  (.ok ⟨[⟨502, "5.5.1 Error: command not implemented"⟩], false, true⟩, st)

/-- `doHELP`. -/
def doHELP (st : ConnState) (_params : List Char) : HResult × ConnState :=
  (.ok ⟨[⟨250, "2.0.0 OK: but I currently have no help to give"⟩], false, false⟩, st)

/-- `doNOOP` (not pipelineable, as the source remarks). -/
def doNOOP (st : ConnState) (_params : List Char) : HResult × ConnState :=
  (.ok ⟨[⟨250, "2.0.0 OK"⟩], false, false⟩, st)

/-- `doQUIT`: reset, `221 2.0.0 Bye` flagged final. -/
def doQUIT (st : ConnState) (_params : List Char) : HResult × ConnState :=
  (.ok ⟨[⟨221, "2.0.0 Bye"⟩], true, false⟩, st.reset)

/-- Tags of the verbs present in the `verbs` dispatch map. -/
inductive VerbTag where
  | HELO | EHLO | MAIL | RCPT | DATA | RSET | VRFY | EXPN | HELP | NOOP | QUIT
deriving Repr, DecidableEq

/-- The `verbs` dispatch map of the source. -/
def verbs : List (String × VerbTag) :=
  [("HELO", .HELO), ("EHLO", .EHLO), ("MAIL", .MAIL), ("RCPT", .RCPT),
   ("DATA", .DATA), ("RSET", .RSET), ("VRFY", .VRFY), ("EXPN", .EXPN),
   ("HELP", .HELP), ("NOOP", .NOOP), ("QUIT", .QUIT)]

/-- Map lookup in `verbs`. -/
def lookupVerb (w : List Char) : Option VerbTag :=
  (verbs.find? (fun p => p.1.data == w)).map (fun p => p.2)

/-- ASCII upper-casing of one character (verb lookup upper-cases the
verb; the table keys are ASCII). -/
def asciiUpper (c : Char) : Char :=
  if 'a' ≤ c ∧ c ≤ 'z' then Char.ofNat (c.toNat - 32) else c

/-- `bytes.Trim(buf, "\r\n")`: drop CR and LF characters from both ends. -/
def trimCRLF (l : List Char) : List Char :=
  ((l.dropWhile (fun c => c == '\r' || c == '\n')).reverse.dropWhile
    (fun c => c == '\r' || c == '\n')).reverse

/-- `bytes.SplitN(trimmed, " ", 2)` followed by the one-word fixup of
`Process`: the verb word and the (possibly empty) parameter tail. -/
def splitFirstSpace (l : List Char) : List Char × List Char :=
  match splitAtChar ' ' l with
  | none => (l, [])
  | some (w, rest) => (w, rest)

/-- The per-command environment of a session: parameters, the bound ITP
and, for DATA, whether the 354 send succeeds and the body wire stream. -/
structure Env where
  p : InboundConnectionParameters
  itp : ITPModel
  dataSendOk : Bool
  dataWire : List Nat

/-- Dispatch a looked-up verb to its handler. -/
def runVerb (v : VerbTag) (env : Env) (st : ConnState) (params : List Char) :
    HResult × ConnState :=
  match v with
  | .HELO => doHELO env.p st params
  | .EHLO => doEHLO env.p st params
  | .MAIL => doMAIL env.itp st params
  | .RCPT => doRCPT env.itp st params
  | .DATA => doDATA env.p.MaxMessageSize env.itp env.dataSendOk env.dataWire st
  | .RSET => doRSET st params
  | .VRFY => doVRFY st params
  | .EXPN => doEXPN st params
  | .HELP => doHELP st params
  | .NOOP => doNOOP st params
  | .QUIT => doQUIT st params

/-- `Process`: trim the command line of CR/LF, split off the first word,
upper-case it and look it up; an unknown verb bumps the
unrecognised-command counter and replies `500 5.5.2`, flagged final once
the counter exceeds `maxUnrecognisedCommands`.  (The `len(words) < 1`
branch of the source is dead: `SplitN` never returns an empty slice.) -/
def Process (env : Env) (st : ConnState) (buf : List Char) :
    HResult × ConnState :=
  match lookupVerb ((splitFirstSpace (trimCRLF buf)).1.map asciiUpper) with
  | none =>
    (.ok ⟨[⟨500, "5.5.2 Error: command unknown"⟩],
          decide (maxUnrecognisedCommands < st.unrecognisedCommands + 1), false⟩,
     { st with unrecognisedCommands := st.unrecognisedCommands + 1 })
  | some v => runVerb v env st (splitFirstSpace (trimCRLF buf)).2

/-- The serve loop over a list of command lines: each command is
processed and its reply collected; an abort stops with no further
replies, and a reply flagged `final` is sent and then closes the
session. -/
def runCmds (env : Env) : ConnState → List (List Char) → List ICResponse × ConnState
  | st, [] => ([], st)
  | st, c :: rest =>
    match Process env st c with
    | (.abort, st') => ([], st')
    | (.ok r, st') =>
      if r.final then ([r], st')
      else
        let p := runCmds env st' rest
        (r :: p.1, p.2)

/-- Fresh connection state (Go zero values, as in `newInboundConnection`). -/
def connInit : ConnState := ⟨[], false, "", 0⟩

/-- Default connection parameters from `newInboundConnection`. -/
def defaultParams : InboundConnectionParameters := ⟨"localhost", 20 * 1024 * 1024⟩

/-- `%03d`: zero-padded three-digit (or longer) decimal. -/
def pad3 (n : Nat) : String :=
  if n < 10 then "00" ++ toString n
  else if n < 100 then "0" ++ toString n
  else toString n

/-- The lines `Send` writes for a response: `NNN<sep><text>\r\n`, the
separator being `-` on every line but the last and a space on the last. -/
def formatResponse (r : ICResponse) : List String :=
  r.lines.enum.map (fun il =>
    pad3 il.2.code ++ (if il.1 != r.lines.length - 1 then "-" else " ") ++
      il.2.text ++ "\r\n")

/-- The buffered I/O state seen by `Send` and `Receive`: unflushed
output, flushed output (the wire), the number of already-buffered input
bytes (`rd.Buffered()`), and the deferred-flush flag `needsFlush`. -/
structure WireState where
  outBuf : List String
  flushed : List String
  buffered : Nat
  needsFlush : Bool
deriving Repr, DecidableEq

/-- `Send`: write the formatted lines into the output buffer; if the
response's `canPipeline` flag is set, set `needsFlush` and skip the
flush, otherwise clear `needsFlush` and flush. -/
def Send (w : WireState) (r : ICResponse) : WireState :=
  let w1 := { w with outBuf := w.outBuf ++ formatResponse r }
  if r.canPipeline then { w1 with needsFlush := true }
  else { w1 with needsFlush := false, flushed := w1.flushed ++ w1.outBuf, outBuf := [] }

/-- The deferred-flush check at the top of `Receive`: if `needsFlush`
is set and no input is buffered, flush before blocking on the socket. -/
def receiveFlushCheck (w : WireState) : WireState :=
  if w.needsFlush && w.buffered == 0 then
    { w with needsFlush := false, flushed := w.flushed ++ w.outBuf, outBuf := [] }
  else w

example : (doMAIL DummyITP connInit "FROM:<a@b>".data).2.inTransaction = true := by decide

example : (doRCPT DummyITP { connInit with inTransaction := true }
    "TO:<c@D>".data).2.RecipientList = ["c@d"] := by decide


example : dataStep 100 ⟨[104, 105, 13, 10], true, false⟩ [46, 10] =
    (⟨[104, 105, 13, 10, 10], false, false⟩, false) := by decide

example : runDATA 100 (fun _ => (none, false)) [104, 105, 13, 10, 46, 13, 10] =
    .finished (some [104, 105, 13, 10]) (.ok queuedOK) := by decide

/-! ## Basic facts about `hasSuffixCRLF` -/

theorem hasSuffixCRLF_append (x : List Nat) :
    hasSuffixCRLF (x ++ [13, 10]) = true := by
  unfold hasSuffixCRLF
  rw [List.reverse_append]
  rfl

theorem hasSuffixCRLF_exists (l : List Nat) (h : hasSuffixCRLF l = true) :
    ∃ x, l = x ++ [13, 10] := by
  unfold hasSuffixCRLF at h
  rcases hrev : l.reverse with _ | ⟨b, _ | ⟨a, t⟩⟩ <;> rw [hrev] at h
  · simp at h
  · simp at h
  · simp only [Bool.and_eq_true, beq_iff_eq] at h
    refine ⟨t.reverse, ?_⟩
    have hl : l = (b :: a :: t).reverse := by
      rw [← hrev, List.reverse_reverse]
    rw [hl, h.1, h.2]
    simp

theorem hasSuffixCRLF_len2 (t : List Nat) (hlen : t.length = 2)
    (h : hasSuffixCRLF t = true) : t = [13, 10] := by
  obtain ⟨x, hx⟩ := hasSuffixCRLF_exists t h
  subst hx
  simp at hlen
  simp [hlen]

/-! ## The framer reachability invariant -/

/-- Invariant of the `doDATA` loop state: once `oversize` the body has
been released, and at a start-of-line boundary the body is empty or ends
in CR LF. -/
def FramerInv (st : FramerState) : Prop :=
  (st.oversize = true → st.body = []) ∧
  (st.startOfLine = true → st.body = [] ∨ hasSuffixCRLF st.body = true)

theorem framerInv_init : FramerInv ⟨[], true, false⟩ := by
  constructor <;> intro h <;> simp


theorem hasSuffixCRLF_append_left (x buf : List Nat)
    (h : hasSuffixCRLF buf = true) : hasSuffixCRLF (x ++ buf) = true := by
  obtain ⟨y, hy⟩ := hasSuffixCRLF_exists buf h
  rw [hy, ← List.append_assoc]
  exact hasSuffixCRLF_append _

theorem framerBody1_nil (m : Nat) (st : FramerState) (buf : List Nat)
    (hov : st.oversize = true → st.body = [])
    (h : framerOversize m st buf = true) : framerBody1 m st buf = [] := by
  unfold framerOversize at h
  unfold framerBody1
  rcases Bool.or_eq_true _ _ |>.mp h with h1 | h1
  · simp [hov h1]
  · simp [h1]

theorem framerAppend_oversize (m : Nat) (st : FramerState) (buf : List Nat)
    (hov : st.oversize = true → st.body = [])
    (h : framerOversize m st buf = true) : framerAppend m st buf = [] := by
  unfold framerAppend
  simp [h, framerBody1_nil m st buf hov h]

theorem framerInv_step (m : Nat) (st : FramerState) (chunk : List Nat)
    (hinv : FramerInv st) : FramerInv (dataStep m st chunk).1 := by
  obtain ⟨hov, hsol⟩ := hinv
  unfold dataStep
  split
  · exact ⟨hov, hsol⟩
  · split
    · -- bare-LF branch
      refine ⟨fun h => ?_, fun h => by simp at h⟩
      simp only at h
      exact framerAppend_oversize m st _ hov h
    · split
      · -- terminator branch
        refine ⟨fun h => ?_, fun h => ?_⟩
        · simp only at h
          exact framerBody1_nil m st _ hov h
        · simp only at h
          unfold framerBody1
          split
          · simp
          · exact hsol h
      · -- CRLF non-terminator branch
        rename_i hsuf _
        simp only [Bool.not_eq_true, Bool.not_eq_false'] at hsuf
        refine ⟨fun h => ?_, fun _ => ?_⟩
        · simp only at h
          exact framerAppend_oversize m st _ hov h
        · simp only []
          unfold framerAppend
          split
          · rename_i hoz
            left
            exact framerBody1_nil m st _ hov hoz
          · right
            exact hasSuffixCRLF_append_left _ _ hsuf

/-- C1.  In the DATA framer, a received line is the end-of-data
terminator iff, at the time it is processed: the start-of-line flag is
true, the line's first byte (before dot-stripping) is '.', the line
after dot-stripping is exactly CR LF, and the accumulated body is empty
or ends with CR LF; in particular the dot-only bare-LF line `.\n`
(the `<LF>.<LF>` sequence) is never a terminator.  The hypothesis is the
start-of-line part of the loop invariant `FramerInv`, established by
`framerInv_init` and preserved by `framerInv_step`. -/
theorem dataStep_terminator_characterisation (m : Nat) (st : FramerState)
    (chunk : List Nat)
    (hinv : st.startOfLine = true → st.body = [] ∨ hasSuffixCRLF st.body = true) :
    ((dataStep m st chunk).2 = true ↔
      st.startOfLine = true ∧ chunk.head? = some 46 ∧
        stripLine st.startOfLine chunk = [13, 10] ∧
        (st.body = [] ∨ hasSuffixCRLF st.body = true)) ∧
    (dataStep m st [46, 10]).2 = false := by
  constructor
  · constructor
    · intro h
      unfold dataStep at h
      split at h
      · simp at h
      · split at h
        · simp at h
        · split at h
          · rename_i hne hsuf hterm
            simp only [Bool.not_eq_true, Bool.not_eq_false'] at hsuf
            unfold isTerminator at hterm
            simp only [Bool.and_eq_true, beq_iff_eq] at hterm
            obtain ⟨⟨⟨hsol1, hlsd⟩, hlen⟩, _⟩ := hterm
            have hhead : chunk.head? = some 46 := hlsd.1
            have hlen2 : (stripLine st.startOfLine chunk).length = 2 := by
              simpa [crlf] using hlen
            exact ⟨hsol1, hhead, hasSuffixCRLF_len2 _ hlen2 hsuf, hinv hsol1⟩
          · simp at h
    · rintro ⟨h1, h2, h3, h4⟩
      have hne : chunk ≠ [] := by
        intro hc
        rw [hc] at h2
        simp at h2
      unfold dataStep
      rw [if_neg hne, h3]
      have hs : (!hasSuffixCRLF [13, 10]) = false := rfl
      rw [hs]
      simp only [Bool.false_eq_true, if_false]
      have hterm : isTerminator m st [13, 10] ((chunk.head? == some 46) && st.startOfLine) = true := by
        unfold isTerminator
        rw [h1, h2]
        simp only [BEq.refl, Bool.and_true, Bool.true_and, crlf]
        unfold framerBody1
        split
        · simp
        · rcases h4 with hb | hb
          · simp [hb]
          · simp [hb]
      rw [hterm]
      simp
  · cases hsol : st.startOfLine with
    | false =>
      have hb : stripLine st.startOfLine [46, 10] = [46, 10] := by
        rw [hsol]
        decide
      unfold dataStep
      rw [if_neg (by simp : ([46, 10] : List Nat) ≠ []), hb]
      rfl
    | true =>
      have hb : stripLine st.startOfLine [46, 10] = [10] := by
        rw [hsol]
        decide
      unfold dataStep
      rw [if_neg (by simp : ([46, 10] : List Nat) ≠ []), hb]
      rfl

/-- Witness for C1 at a concrete state and terminator line. -/
theorem dataStep_terminator_characterisation_witness :
    (dataStep 100 ⟨[104, 105, 13, 10], true, false⟩ [46, 13, 10]).2 = true ∧
    (dataStep 100 ⟨[104, 105, 13, 10], true, false⟩ [46, 10]).2 = false := by
  have h := dataStep_terminator_characterisation 100
    ⟨[104, 105, 13, 10], true, false⟩ [46, 13, 10] (by decide)
  exact ⟨h.1.mpr (by refine ⟨rfl, rfl, rfl, Or.inr ?_⟩; decide), h.2⟩

/-- Stepping `runFramer` through a successful non-terminator read. -/
theorem runFramer_cons_ok (m : Nat) (st : FramerState) (chunk : List Nat)
    (rest : List ReadResult) (h : (dataStep m st chunk).2 = false) :
    runFramer m st (.ok chunk :: rest) = runFramer m (dataStep m st chunk).1 rest := by
  unfold runFramer
  rcases hds : dataStep m st chunk with ⟨st', t⟩
  rw [hds] at h
  simp only at h
  subst h
  rcases rest with _ | ⟨r, t⟩
  · rfl
  · cases r <;> rfl

/-- Stepping `runFramer` through a terminator read. -/
theorem runFramer_cons_done (m : Nat) (st : FramerState) (chunk : List Nat)
    (rest : List ReadResult) (h : (dataStep m st chunk).2 = true) :
    runFramer m st (.ok chunk :: rest) = .done (dataStep m st chunk).1 := by
  unfold runFramer
  rcases hds : dataStep m st chunk with ⟨st', t⟩
  rw [hds] at h
  simp only at h
  subst h
  rfl

/-- If at least `bufSize - curLen` LF-free bytes are pending, the next
read fills the buffer without finding a delimiter and fails with
`ErrBufferFull`. -/
theorem chunkAux_fragment (bufSize : Nat) (w rest : List Nat) :
    ∀ (curRev : List Nat) (curLen : Nat), (10 : Nat) ∉ w → curLen < bufSize →
    bufSize ≤ curLen + w.length →
    ∃ c t, chunkAux bufSize curRev curLen (w ++ rest) = .fragment c :: t := by
  induction w with
  | nil =>
    intro curRev curLen _ hlt hge
    simp only [List.length_nil, Nat.add_zero] at hge
    omega
  | cons b wt ih =>
    intro curRev curLen hmem hlt hge
    have hb : (b == 10) = false := by
      simp only [beq_eq_false_iff_ne]
      intro hcontra
      exact hmem (by simp [hcontra])
    rw [List.cons_append]
    unfold chunkAux
    rw [hb]
    simp only [Bool.false_eq_true, if_false]
    by_cases hfull : bufSize ≤ curLen + 1
    · rw [if_pos hfull]
      exact ⟨_, _, rfl⟩
    · rw [if_neg hfull]
      refine ih _ _ (fun hm => hmem (List.mem_cons_of_mem _ hm)) (by omega) ?_
      simp only [List.length_cons] at hge
      omega

/-- C2 counterexample.  A CRLF-less fragment read — here produced by a
4200-byte LF-free line read through the 4096-byte buffer, and
equivalently by a direct `ErrBufferFull` read result — terminates the
session (`return nil, err` in the source loop); it is not appended and
the framer does not continue. -/
theorem fragment_read_aborts_session :
    runFramer (20 * 1024 * 1024) ⟨[], true, false⟩
      (chunkReads 4096 (List.replicate 4200 97)) = .ioError ∧
    runFramer (20 * 1024 * 1024) ⟨[], true, false⟩
      [ReadResult.fragment (List.replicate 4096 97)] = .ioError := by
  constructor
  · obtain ⟨c, t, hc⟩ := chunkAux_fragment 4096 (List.replicate 4200 97) [] [] 0
      (by rw [List.mem_replicate]; omega) (by omega) (by rw [List.length_replicate]; omega)
    rw [List.append_nil] at hc
    rw [chunkReads, hc]
    rfl
  · rfl

/-- C2 amended.  Only a *successful* read can yield data not ending in
CR LF, and such a read necessarily returns a bare-LF-terminated line
(successful `ReadSlice('\n')` reads always end in LF): that line is
appended to the body (after dot-stripping applied only to its first
fragment, and only when the framer is not in oversize mode), the
start-of-line flag is set to false, the loop continues and the session
is not terminated by the read.  A failed read — in particular the
`ErrBufferFull` fragment of a line longer than the reader's buffer —
terminates the session instead (see the counterexample). -/
theorem bareLF_line_append_continue (m : Nat) (st : FramerState)
    (chunk : List Nat) (rest : List ReadResult)
    (hne : chunk ≠ []) (hlast : chunk.getLast? = some 10)
    (hnc : hasSuffixCRLF chunk = false) :
    (dataStep m st chunk).2 = false ∧
    (dataStep m st chunk).1.startOfLine = false ∧
    (st.oversize = false →
      framerTrigger m st (stripLine st.startOfLine chunk) = false →
      (dataStep m st chunk).1.body = st.body ++ stripLine st.startOfLine chunk) ∧
    runFramer m st (.ok chunk :: rest) = runFramer m (dataStep m st chunk).1 rest := by
  have hstrip : hasSuffixCRLF (stripLine st.startOfLine chunk) = false := by
    unfold stripLine
    split
    · cases hct : hasSuffixCRLF chunk.tail
      · rfl
      · exfalso
        obtain ⟨x, hx⟩ := hasSuffixCRLF_exists _ hct
        cases chunk with
        | nil => exact hne rfl
        | cons b t =>
          simp only [List.tail_cons] at hx
          rw [hx] at hnc
          have hcontra : hasSuffixCRLF (b :: (x ++ [13, 10])) = true := by
            have h2 := hasSuffixCRLF_append_left [b] (x ++ [13, 10])
              (hasSuffixCRLF_append x)
            simpa using h2
          rw [hcontra] at hnc
          cases hnc
    · exact hnc
  have hsel : dataStep m st chunk =
      (⟨framerAppend m st (stripLine st.startOfLine chunk), false,
        framerOversize m st (stripLine st.startOfLine chunk)⟩, false) := by
    unfold dataStep
    rw [if_neg hne, hstrip]
    rfl
  refine ⟨by rw [hsel], by rw [hsel], fun hov htr => ?_, ?_⟩
  · rw [hsel]
    simp only []
    unfold framerAppend framerOversize framerBody1
    rw [hov, htr]
    rfl
  · exact runFramer_cons_ok m st chunk rest (by rw [hsel])

/-- Witness for the amended C2 at a concrete bare-LF line. -/
theorem bareLF_line_append_continue_witness :
    (dataStep 100 ⟨[104, 13, 10], true, false⟩ [120, 10]).2 = false ∧
    (dataStep 100 ⟨[104, 13, 10], true, false⟩ [120, 10]).1.body = [104, 13, 10, 120, 10] := by
  have h := bareLF_line_append_continue 100 ⟨[104, 13, 10], true, false⟩ [120, 10] []
    (by decide) (by decide) (by decide)
  exact ⟨h.1, by rw [h.2.2.1 (by decide) (by decide)]; decide⟩

/-- Effects of crossing the soft threshold: the oversize flag is set and
the stored body is released. -/
theorem framer_trigger_effects (m : Nat) (st : FramerState) (buf : List Nat)
    (htr : framerTrigger m st buf = true) :
    framerOversize m st buf = true ∧ framerBody1 m st buf = [] ∧
    framerAppend m st buf = [] := by
  have h1 : framerOversize m st buf = true := by
    unfold framerOversize
    rw [htr]
    simp
  have h2 : framerBody1 m st buf = [] := by
    unfold framerBody1
    rw [htr]
    rfl
  refine ⟨h1, h2, ?_⟩
  unfold framerAppend
  rw [h1, h2]
  rfl

/-- Effects of being in oversize mode: the flag stays set, the trigger
cannot re-fire, and read bytes are not stored. -/
theorem framer_oversize_effects (m : Nat) (st : FramerState) (buf : List Nat)
    (hov : st.oversize = true) :
    framerTrigger m st buf = false ∧ framerOversize m st buf = true ∧
    framerBody1 m st buf = st.body ∧ framerAppend m st buf = st.body := by
  have htr : framerTrigger m st buf = false := by
    unfold framerTrigger
    rw [hov]
    rfl
  have h1 : framerOversize m st buf = true := by
    unfold framerOversize
    rw [hov]
    rfl
  have h2 : framerBody1 m st buf = st.body := by
    unfold framerBody1
    rw [htr]
    rfl
  refine ⟨htr, h1, h2, ?_⟩
  unfold framerAppend
  rw [h1, h2]
  rfl

/-- C4.  Size policy of the DATA framer: (i) when appending the
dot-stripped line would take the stored body past
`MaxMessageSize + 1024` bytes, the oversize flag is set and the
accumulated body is discarded; (ii) once oversize, further lines are
drained with the flag kept and nothing stored; (iii) at end of data, an
oversize flag or a body strictly longer than `MaxMessageSize` yields the
`552 4.3.4 Error: message too big for system` reply and `ProcessMail` is
not invoked; (iv) in particular a body of exactly
`MaxMessageSize + 1` bytes gets the 552 reply with no `ProcessMail`
call. -/
theorem data_size_policy (m : Nat) (st : FramerState) (chunk : List Nat)
    (hchunk : chunk ≠ []) :
    ((st.oversize = false ∧
        m + 1024 < (stripLine st.startOfLine chunk).length + st.body.length) →
      (dataStep m st chunk).1.oversize = true ∧ (dataStep m st chunk).1.body = []) ∧
    (st.oversize = true →
      (dataStep m st chunk).1.oversize = true ∧
      (dataStep m st chunk).1.body = st.body) ∧
    (∀ (pm : List Nat → Option ICResponse × Bool) (stE : FramerState),
      stE.oversize = true ∨ m < stE.body.length →
      dataFinish m pm stE = (none, .ok msgTooBig)) ∧
    (∀ (pm : List Nat → Option ICResponse × Bool) (stE : FramerState),
      stE.body.length = m + 1 → dataFinish m pm stE = (none, .ok msgTooBig)) := by
  refine ⟨fun ⟨hov, hlt⟩ => ?_, fun hov => ?_, fun pm stE hbig => ?_, fun pm stE hlen => ?_⟩
  · have htr : framerTrigger m st (stripLine st.startOfLine chunk) = true := by
      unfold framerTrigger
      rw [hov]
      simpa using hlt
    obtain ⟨h1, h2, h3⟩ := framer_trigger_effects m st _ htr
    unfold dataStep
    rw [if_neg hchunk]
    split
    · exact ⟨h1, h3⟩
    · split
      · exact ⟨h1, h2⟩
      · exact ⟨h1, h3⟩
  · obtain ⟨htr, h1, h2, h3⟩ := framer_oversize_effects m st
      (stripLine st.startOfLine chunk) hov
    unfold dataStep
    rw [if_neg hchunk]
    split
    · exact ⟨h1, h3⟩
    · split
      · exact ⟨h1, h2⟩
      · exact ⟨h1, h3⟩
  · unfold dataFinish
    rcases hbig with hb | hb
    · rw [hb]
      rfl
    · rw [if_pos ?_]
      simp [hb]
  · unfold dataFinish
    rw [if_pos ?_]
    simp [hlen]

set_option maxRecDepth 5000 in
/-- Witness for C4: the threshold crossing at `m = 0` with a 1100-byte
body, the drain-unstored behaviour, and the 552 end checks, all at
concrete inputs. -/
theorem data_size_policy_witness :
    ((dataStep 0 ⟨List.replicate 1100 97, false, false⟩ [100, 10]).1.oversize = true ∧
      (dataStep 0 ⟨List.replicate 1100 97, false, false⟩ [100, 10]).1.body = []) ∧
    ((dataStep 4 ⟨[], false, true⟩ [100, 10]).1.oversize = true ∧
      (dataStep 4 ⟨[], false, true⟩ [100, 10]).1.body = []) ∧
    dataFinish 4 (fun _ => (none, false)) ⟨[], true, true⟩ = (none, .ok msgTooBig) ∧
    dataFinish 4 (fun _ => (none, false)) ⟨[97, 98, 99, 100, 101], true, false⟩ =
      (none, .ok msgTooBig) := by
  have h1 := data_size_policy 0 ⟨List.replicate 1100 97, false, false⟩ [100, 10] (by decide)
  have h2 := data_size_policy 4 ⟨[], false, true⟩ [100, 10] (by decide)
  refine ⟨h1.1 ⟨rfl, ?_⟩, h2.2.1 rfl, h2.2.2.1 _ _ (Or.inl rfl), h2.2.2.2 _ _ (by decide)⟩
  rw [List.length_replicate]
  decide

/-! ## Lemmas for the dot-stuffing round trip -/

/-- Whether the byte before the current position is CR: the last byte of
`w`, or the inherited flag `p` when `w` is empty. -/
def lastCR (p : Bool) (w : List Nat) : Bool :=
  match w.reverse with
  | b :: _ => b == 13
  | [] => p

theorem lastCR_cons (p : Bool) (a : Nat) (t : List Nat) :
    lastCR p (a :: t) = lastCR (a == 13) t := by
  unfold lastCR
  rw [List.reverse_cons]
  rcases htr : t.reverse with _ | ⟨c, s⟩
  · simp
  · simp

theorem hasSuffixCRLF_unit (a : Nat) (t : List Nat) :
    hasSuffixCRLF (a :: (t ++ [10])) = lastCR (a == 13) t := by
  unfold hasSuffixCRLF lastCR
  rw [List.reverse_cons, List.reverse_append]
  rcases htr : t.reverse with _ | ⟨c, s⟩
  · simp
  · simp

theorem hasSuffixCRLF_lf_only : hasSuffixCRLF [10] = false := rfl

theorem dotStuffAux_nil (aSt p : Bool) : dotStuffAux aSt p [] = [] := rfl

theorem dotStuffAux_cons (aSt p : Bool) (b : Nat) (rest : List Nat) :
    dotStuffAux aSt p (b :: rest) =
      (if aSt && b == 46 then [46, 46] else [b]) ++
        dotStuffAux (p && b == 10) (b == 13) rest := rfl

/-- `dotStuffAux` passes an LF-free span through unchanged when not at a
start-of-line position, and lands after the LF with the correct flags. -/
theorem dotStuffAux_nostuff (B2 : List Nat) :
    ∀ (w : List Nat) (p : Bool), (10 : Nat) ∉ w →
    dotStuffAux false p (w ++ 10 :: B2) =
      w ++ 10 :: dotStuffAux (lastCR p w) false B2 := by
  intro w
  induction w with
  | nil =>
    intro p _
    rw [List.nil_append, dotStuffAux_cons]
    simp [lastCR]
  | cons a t ih =>
    intro p hmem
    have ha : (a == 10) = false := by
      simp only [beq_eq_false_iff_ne]
      intro hcontra
      exact hmem (by simp [hcontra])
    rw [List.cons_append, dotStuffAux_cons, ha]
    simp only [Bool.and_false]
    rw [ih (a == 13) (fun hm => hmem (List.mem_cons_of_mem _ hm))]
    rw [lastCR_cons]
    simp

/-- The wire form of one line: a '.' is prepended iff the client is at a
start-of-line position and the line begins with '.'. -/
def stuffUnit (atStart : Bool) (u : List Nat) : List Nat :=
  if atStart && (u.head? == some 46) then 46 :: u else u

theorem hasSuffixCRLF_unit2 (w : List Nat) :
    hasSuffixCRLF (w ++ [10]) = lastCR false w := by
  rcases w with _ | ⟨a, t⟩
  · rfl
  · rw [List.cons_append, hasSuffixCRLF_unit, lastCR_cons]

/-- `dotStuffAux` decomposed at the first LF: the first line is stuffed
iff at a start-of-line position, and the rest is stuffed from the
position after that line's LF, which is a start of line iff the line
ended in CR LF. -/
theorem dotStuffAux_unit (B2 : List Nat) (w : List Nat) (hw : (10 : Nat) ∉ w)
    (atStart : Bool) :
    dotStuffAux atStart false (w ++ 10 :: B2) =
      stuffUnit atStart (w ++ [10]) ++
        dotStuffAux (hasSuffixCRLF (w ++ [10])) false B2 := by
  cases atStart with
  | false =>
    rw [dotStuffAux_nostuff B2 w false hw, hasSuffixCRLF_unit2]
    unfold stuffUnit
    simp
  | true =>
    rcases w with _ | ⟨a, t⟩
    · rw [List.nil_append, dotStuffAux_cons]
      unfold stuffUnit
      simp [lastCR, hasSuffixCRLF_lf_only]
    · have hmem : (10 : Nat) ∉ t := fun hm => hw (List.mem_cons_of_mem _ hm)
      have hsuf : hasSuffixCRLF ((a :: t) ++ [10]) = lastCR (a == 13) t := by
        rw [List.cons_append, hasSuffixCRLF_unit]
      by_cases hc : a = 46
      · subst hc
        rw [List.cons_append, dotStuffAux_cons]
        simp only [Bool.false_and]
        rw [dotStuffAux_nostuff B2 t (46 == 13) hmem]
        rw [hsuf]
        unfold stuffUnit
        simp [lastCR_cons]
      · have ha46 : (a == 46) = false := beq_eq_false_iff_ne.mpr hc
        rw [List.cons_append, dotStuffAux_cons, ha46]
        simp only [Bool.false_and]
        rw [dotStuffAux_nostuff B2 t (a == 13) hmem]
        rw [hsuf]
        unfold stuffUnit
        have hopt : ((some a == some 46) : Bool) = (a == 46) := rfl
        rw [List.cons_append]
        simp [hopt, ha46, lastCR_cons]

theorem chunkAux_nil (bufSize : Nat) (curRev : List Nat) (curLen : Nat) :
    chunkAux bufSize curRev curLen [] = [] := rfl

theorem chunkAux_cons (bufSize : Nat) (curRev : List Nat) (curLen b : Nat)
    (rest : List Nat) :
    chunkAux bufSize curRev curLen (b :: rest) =
      if b == 10 then .ok (curRev.reverse ++ [b]) :: chunkAux bufSize [] 0 rest
      else if bufSize ≤ curLen + 1 then
        .fragment (b :: curRev).reverse :: chunkAux bufSize [] 0 rest
      else chunkAux bufSize (b :: curRev) (curLen + 1) rest := rfl

/-- A line that fits the buffer is returned whole by `ReadSlice`. -/
theorem chunkAux_unit (bufSize : Nat) (rest : List Nat) :
    ∀ (w curRev : List Nat), (10 : Nat) ∉ w →
    curRev.length + w.length + 1 ≤ bufSize →
    chunkAux bufSize curRev curRev.length (w ++ 10 :: rest) =
      .ok (curRev.reverse ++ (w ++ [10])) :: chunkAux bufSize [] 0 rest := by
  intro w
  induction w with
  | nil =>
    intro curRev _ _
    rw [List.nil_append, chunkAux_cons]
    simp
  | cons a t ih =>
    intro curRev hmem hsize
    have ha : (a == 10) = false := by
      simp only [beq_eq_false_iff_ne]
      intro hcontra
      exact hmem (by simp [hcontra])
    rw [List.cons_append, chunkAux_cons, ha]
    simp only [Bool.false_eq_true, if_false]
    rw [if_neg (by simp only [List.length_cons] at hsize; omega)]
    have hlen : curRev.length + 1 = (a :: curRev).length := by
      rw [List.length_cons]
    rw [hlen, ih (a :: curRev) (fun hm => hmem (List.mem_cons_of_mem _ hm))
      (by simp only [List.length_cons] at hsize ⊢; omega)]
    simp

/-- `linesFit` restricted to the first line and to the remainder. -/
theorem linesFit_unit (limit : Nat) (rest : List Nat) :
    ∀ (w : List Nat) (cur : Nat), (10 : Nat) ∉ w →
    linesFit limit cur (w ++ 10 :: rest) = true →
    cur + w.length + 1 ≤ limit ∧ linesFit limit 0 rest = true := by
  intro w
  induction w with
  | nil =>
    intro cur _ hfit
    rw [List.nil_append] at hfit
    unfold linesFit at hfit
    split at hfit
    · cases hfit
    · rename_i hlim
      simp only [Nat.reduceBEq] at hfit
      refine ⟨by simp only [List.length_nil]; omega, by simpa using hfit⟩
  | cons a t ih =>
    intro cur hmem hfit
    have ha : (a == 10) = false := by
      simp only [beq_eq_false_iff_ne]
      intro hcontra
      exact hmem (by simp [hcontra])
    rw [List.cons_append] at hfit
    unfold linesFit at hfit
    split at hfit
    · cases hfit
    · rename_i hlim
      rw [ha] at hfit
      simp only [Bool.false_eq_true, if_false] at hfit
      obtain ⟨h1, h2⟩ := ih (cur + 1) (fun hm => hmem (List.mem_cons_of_mem _ hm)) hfit
      refine ⟨by simp only [List.length_cons]; omega, h2⟩

/-- Any list containing an LF splits at its first LF. -/
theorem exists_unit : ∀ (l : List Nat), (10 : Nat) ∈ l →
    ∃ w rest, (10 : Nat) ∉ w ∧ l = w ++ 10 :: rest := by
  intro l
  induction l with
  | nil => intro h; cases h
  | cons b t ih =>
    intro hmem
    by_cases hb : b = 10
    · subst hb
      exact ⟨[], t, by simp, rfl⟩
    · have hmt : (10 : Nat) ∈ t := by
        rcases List.mem_cons.mp hmem with h | h
        · exact absurd h.symm hb
        · exact h
      obtain ⟨w, rest, hw, hl⟩ := ih hmt
      exact ⟨b :: w, rest, by
        intro hm
        rcases List.mem_cons.mp hm with h | h
        · exact hb h.symm
        · exact hw h, by rw [hl, List.cons_append]⟩

theorem mem_lf_of_hasSuffixCRLF (l : List Nat) (h : hasSuffixCRLF l = true) :
    (10 : Nat) ∈ l := by
  obtain ⟨x, hx⟩ := hasSuffixCRLF_exists l h
  rw [hx]
  simp

/-- `hasSuffixCRLF` only looks at the last two bytes. -/
theorem hasSuffixCRLF_append_ge2 (l1 l2 : List Nat) (h : 2 ≤ l2.length) :
    hasSuffixCRLF (l1 ++ l2) = hasSuffixCRLF l2 := by
  unfold hasSuffixCRLF
  rw [List.reverse_append]
  rcases hr : l2.reverse with _ | ⟨b, _ | ⟨a, s⟩⟩
  · exfalso
    have h0 := congrArg List.length hr
    rw [List.length_reverse] at h0
    simp only [List.length_nil] at h0
    omega
  · exfalso
    have h0 := congrArg List.length hr
    rw [List.length_reverse] at h0
    simp only [List.length_cons, List.length_nil] at h0
    omega
  · simp only [List.cons_append]

/-- The CR LF tail of the whole stream is inherited by the remainder
after splitting off a complete line. -/
theorem hasSuffixCRLF_rest (w rest : List Nat)
    (h : hasSuffixCRLF (w ++ 10 :: rest) = true) (hne : rest ≠ []) :
    hasSuffixCRLF rest = true := by
  rcases rest with _ | ⟨z, s⟩
  · exact absurd rfl hne
  rcases s with _ | ⟨z2, s2⟩
  · exfalso
    unfold hasSuffixCRLF at h
    simp only [List.reverse_append, List.reverse_cons, List.reverse_nil,
      List.nil_append, List.cons_append, List.append_assoc] at h
    simp at h
  · rw [show w ++ 10 :: (z :: z2 :: s2) = (w ++ [10]) ++ (z :: z2 :: s2) by simp] at h
    rw [hasSuffixCRLF_append_ge2 _ _ (by simp)] at h
    exact h

/-- The framer strips exactly the dot the client stuffed. -/
theorem stripLine_stuffUnit (atStart : Bool) (u : List Nat) :
    stripLine atStart (stuffUnit atStart u) = u := by
  cases atStart with
  | false =>
    unfold stuffUnit stripLine
    simp
  | true =>
    by_cases hd : (u.head? == some 46) = true
    · simp only [stuffUnit, stripLine, hd]
      simp
    · simp only [Bool.not_eq_true] at hd
      simp only [stuffUnit, stripLine, hd]
      simp
      intro h
      exfalso
      rw [h] at hd
      simp at hd

/-- Processing one stuffed line from a non-oversize state whose stored
body plus the line fits within the message limit: the dot-stripped line
is appended, the loop does not break, and the start-of-line flag records
whether the line ended in CR LF. -/
theorem dataStep_stuffUnit (m : Nat) (done : List Nat) (atStart : Bool)
    (w : List Nat) (hsize : done.length + (w.length + 1) ≤ m) :
    dataStep m ⟨done, atStart, false⟩ (stuffUnit atStart (w ++ [10])) =
      (⟨done ++ (w ++ [10]), hasSuffixCRLF (w ++ [10]), false⟩, false) := by
  have hne : stuffUnit atStart (w ++ [10]) ≠ [] := by
    unfold stuffUnit
    split
    · simp
    · simp
  have hstrip : stripLine (FramerState.mk done atStart false).startOfLine
      (stuffUnit atStart (w ++ [10])) = w ++ [10] := stripLine_stuffUnit atStart _
  have htr : framerTrigger m ⟨done, atStart, false⟩ (w ++ [10]) = false := by
    unfold framerTrigger
    simp only [Bool.not_false, Bool.true_and]
    rw [decide_eq_false_iff_not]
    rw [List.length_append, List.length_cons, List.length_nil]
    omega
  have hov : framerOversize m ⟨done, atStart, false⟩ (w ++ [10]) = false := by
    unfold framerOversize
    rw [htr]
    rfl
  have hbody1 : framerBody1 m ⟨done, atStart, false⟩ (w ++ [10]) = done := by
    unfold framerBody1
    rw [htr]
    rfl
  have happ : framerAppend m ⟨done, atStart, false⟩ (w ++ [10]) = done ++ (w ++ [10]) := by
    unfold framerAppend
    rw [hov, hbody1]
    rfl
  unfold dataStep
  rw [if_neg hne, hstrip]
  cases hsu : hasSuffixCRLF (w ++ [10]) with
  | false =>
    rw [if_pos (by rfl)]
    rw [happ, hov]
  | true =>
    rw [if_neg (by simp)]
    have hterm : isTerminator m ⟨done, atStart, false⟩ (w ++ [10])
        (((stuffUnit atStart (w ++ [10])).head? == some 46) && atStart) = false := by
      unfold isTerminator
      cases atStart with
      | false => simp
      | true =>
        by_cases hd : ((w ++ [10]).head? == some 46) = true
        · by_cases hlen2 : (w ++ [10]).length = 2
          · exfalso
            have hu := hasSuffixCRLF_len2 _ hlen2 hsu
            rw [hu] at hd
            simp at hd
          · have : ((w ++ [10]).length == crlf.length) = false := by
              unfold crlf
              simp only [List.length_cons, List.length_nil, beq_eq_false_iff_ne]
              omega
            rw [this]
            simp
        · have hsu2 : stuffUnit true (w ++ [10]) = w ++ [10] := by
            unfold stuffUnit
            rw [Bool.not_eq_true] at hd
            rw [hd]
            simp
          rw [hsu2]
          rw [Bool.not_eq_true] at hd
          rw [hd]
          simp
    rw [hterm]
    simp only [Bool.false_eq_true, if_false]
    rw [happ, hov]

/-- The terminating `.\r\n` read: from a start-of-line state whose body
fits the limit, the loop breaks with the body unchanged. -/
theorem dataStep_finalDot (m : Nat) (bd : List Nat)
    (hsuf : bd = [] ∨ hasSuffixCRLF bd = true) (hsize : bd.length ≤ m) :
    dataStep m ⟨bd, true, false⟩ [46, 13, 10] = (⟨bd, true, false⟩, true) := by
  have hstrip : stripLine (FramerState.mk bd true false).startOfLine [46, 13, 10] =
      ([13, 10] : List Nat) := rfl
  have htr : framerTrigger m ⟨bd, true, false⟩ [13, 10] = false := by
    unfold framerTrigger
    simp only [Bool.not_false, Bool.true_and]
    rw [decide_eq_false_iff_not]
    simp only [List.length_cons, List.length_nil]
    omega
  have hov : framerOversize m ⟨bd, true, false⟩ [13, 10] = false := by
    unfold framerOversize
    rw [htr]
    rfl
  have hbody1 : framerBody1 m ⟨bd, true, false⟩ [13, 10] = bd := by
    unfold framerBody1
    rw [htr]
    rfl
  have hterm : isTerminator m ⟨bd, true, false⟩ [13, 10]
      ((([46, 13, 10] : List Nat).head? == some 46) && true) = true := by
    unfold isTerminator
    rw [hbody1]
    rcases hsuf with hb | hb
    · rw [hb]
      rfl
    · rw [hb]
      rfl
  unfold dataStep
  rw [if_neg (by simp), hstrip]
  rw [if_neg (by simp [hasSuffixCRLF])]
  rw [hterm]
  simp only [if_true]
  rw [hbody1, hov]

/-- When the completed body fits the limit, `ProcessMail` is invoked
with exactly that body, whatever it returns. -/
theorem dataFinish_processed (m : Nat) (pm : List Nat → Option ICResponse × Bool)
    (st : FramerState) (hov : st.oversize = false) (hlen : st.body.length ≤ m) :
    (dataFinish m pm st).1 = some st.body := by
  unfold dataFinish
  rw [hov]
  have hd : decide (m < st.body.length) = false := decide_eq_false (by omega)
  rw [hd]
  simp only [Bool.or_false, Bool.false_eq_true, if_false]
  rcases hpm : pm st.body with ⟨ro, e⟩
  cases e <;> cases ro <;> rfl

/-- Main induction for the dot-stuffing round trip: from any reader
position, stuffing the remaining body `B'` (which ends in CR LF, fits
the size limit together with what is already stored, and has every line
within the reader's buffer) and terminating with `.\r\n` drives the
framer to completion with exactly `done ++ B'` accumulated. -/
theorem framer_roundtrip_aux (m : Nat) :
    ∀ (n : Nat) (B' done : List Nat) (atStart : Bool),
    B'.length ≤ n → B' ≠ [] → hasSuffixCRLF B' = true →
    done.length + B'.length ≤ m →
    linesFit 4095 0 B' = true →
    runFramer m ⟨done, atStart, false⟩
      (chunkReads 4096 (dotStuffAux atStart false B' ++ [46, 13, 10])) =
      .done ⟨done ++ B', true, false⟩ := by
  intro n
  induction n with
  | zero =>
    intro B' done atStart hlen hne _ _ _
    exact absurd (List.length_eq_zero.mp (Nat.le_zero.mp hlen)) hne
  | succ n ih =>
    intro B' done atStart hlen hne hsufB hsize hfit
    obtain ⟨w, rest, hw, hdec⟩ := exists_unit B' (mem_lf_of_hasSuffixCRLF B' hsufB)
    subst hdec
    obtain ⟨hfitw, hfitrest⟩ := linesFit_unit 4095 rest w 0 hw hfit
    have hlen1 : (w ++ 10 :: rest).length = w.length + (rest.length + 1) := by
      rw [List.length_append, List.length_cons]
    have hsize1 : done.length + (w.length + 1) ≤ m := by
      rw [hlen1] at hsize
      omega
    obtain ⟨w', hw'eq, hw'mem, hw'len⟩ :
        ∃ w', stuffUnit atStart (w ++ [10]) = w' ++ [10] ∧ (10 : Nat) ∉ w' ∧
          w'.length ≤ w.length + 1 := by
      unfold stuffUnit
      split
      · refine ⟨46 :: w, by rw [List.cons_append], ?_, by simp⟩
        intro hm
        rcases List.mem_cons.mp hm with h | h
        · exact absurd h (by decide)
        · exact hw h
      · exact ⟨w, rfl, hw, by omega⟩
    rw [dotStuffAux_unit rest w hw atStart, List.append_assoc, hw'eq]
    have hshape : (w' ++ [10]) ++
        (dotStuffAux (hasSuffixCRLF (w ++ [10])) false rest ++ [46, 13, 10]) =
        w' ++ 10 :: (dotStuffAux (hasSuffixCRLF (w ++ [10])) false rest ++ [46, 13, 10]) := by
      simp
    rw [hshape]
    unfold chunkReads
    have hchunk := chunkAux_unit 4096
      (dotStuffAux (hasSuffixCRLF (w ++ [10])) false rest ++ [46, 13, 10]) w' []
      hw'mem (by simp only [List.length_nil]; omega)
    simp only [List.length_nil, List.reverse_nil, List.nil_append] at hchunk
    rw [hchunk, ← hw'eq]
    have hstep := dataStep_stuffUnit m done atStart w hsize1
    rw [runFramer_cons_ok m ⟨done, atStart, false⟩ _ _ (by rw [hstep]), hstep]
    simp only []
    by_cases hrest : rest = []
    · subst hrest
      have hsu : hasSuffixCRLF (w ++ [10]) = true := hsufB
      rw [hsu, dotStuffAux_nil, List.nil_append]
      have hterm3 : chunkAux 4096 [] 0 [46, 13, 10] = [.ok [46, 13, 10]] := by decide
      rw [hterm3]
      have hfd := dataStep_finalDot m (done ++ (w ++ [10]))
        (Or.inr (hasSuffixCRLF_append_left done _ hsu))
        (by rw [List.length_append, List.length_append, List.length_cons,
              List.length_nil]; omega)
      rw [runFramer_cons_done m _ _ _ (by rw [hfd]), hfd]
    · have hsurest : hasSuffixCRLF rest = true := hasSuffixCRLF_rest w rest hsufB hrest
      have hihres := ih rest (done ++ (w ++ [10])) (hasSuffixCRLF (w ++ [10]))
        (by rw [hlen1] at hlen; omega) hrest hsurest
        (by rw [List.length_append, List.length_append, List.length_cons,
              List.length_nil]
            rw [hlen1] at hsize
            omega)
        hfitrest
      unfold chunkReads at hihres
      rw [hihres]
      have hassoc : (done ++ (w ++ [10])) ++ rest = done ++ (w ++ 10 :: rest) := by
        simp
      rw [hassoc]

/-- A body with no dot at any line start (position 0 or after any LF) is
left unchanged by dot-stuffing. -/
theorem dotStuffAux_id : ∀ (l : List Nat) (aD aH p : Bool),
    (aD = true → aH = true) → hasDotAtLineStartAux aH l = false →
    dotStuffAux aD p l = l := by
  intro l
  induction l with
  | nil => intro aD aH p _ _; rfl
  | cons b t ih =>
    intro aD aH p himp hno
    unfold hasDotAtLineStartAux at hno
    rw [Bool.or_eq_false_iff] at hno
    have hcond : (aD && b == 46) = false := by
      cases haD : aD
      · rfl
      · have haH := himp haD
        rw [haH] at hno
        simpa using hno.1
    rw [dotStuffAux_cons, hcond]
    simp only [Bool.false_eq_true, if_false, List.singleton_append]
    rw [ih (p && b == 10) (b == 10) (b == 13)
      (fun h => (Bool.and_eq_true _ _ |>.mp h).2) hno.2]

theorem dotStuff_id (l : List Nat) (h : hasDotAtLineStart l = false) :
    dotStuff l = l :=
  dotStuffAux_id l true true false (fun hh => hh) h

/-- A body containing no '.' byte at all has no dot at a line start. -/
theorem hasDotAtLineStartAux_of_no_dot : ∀ (l : List Nat) (a : Bool),
    (46 : Nat) ∉ l → hasDotAtLineStartAux a l = false := by
  intro l
  induction l with
  | nil => intro a _; rfl
  | cons b t ih =>
    intro a hmem
    have hb : (b == 46) = false := by
      simp only [beq_eq_false_iff_ne]
      intro hcontra
      exact hmem (by simp [hcontra])
    unfold hasDotAtLineStartAux
    rw [hb]
    simp only [Bool.and_false, Bool.false_or]
    exact ih _ (fun hm => hmem (List.mem_cons_of_mem _ hm))

/-- C3 amended.  Dot-stuffing round trip: for every body `B` ending in
CR LF, within the message-size limit, and — the amendment — with every
line at most 4095 bytes so that each stuffed line fits the 4096-byte
read buffer: transmitting `B` with every start-of-line '.' doubled,
followed by the `.\r\n` terminator completing the `\r\n.\r\n` sequence,
makes the framer complete and invoke `ProcessMail` with exactly `B`;
and if `B` has no line starting with '.' (and no embedded
`CRLF.CRLF`), transmitting `B` unmodified followed by the terminator
does the same. -/
theorem dotStuff_roundtrip (m : Nat) (B : List Nat)
    (hend : hasSuffixCRLF B = true)
    (hsize : B.length ≤ m)
    (hfit : linesFit 4095 0 B = true) :
    (∀ pm : List Nat → Option ICResponse × Bool,
      (runDATA m pm (dotStuff B ++ [46, 13, 10])).processedArg = some B) ∧
    ((hasDotAtLineStart B = false ∧
        ¬ List.IsInfix [13, 10, 46, 13, 10] B) →
      ∀ pm : List Nat → Option ICResponse × Bool,
      (runDATA m pm (B ++ [46, 13, 10])).processedArg = some B) := by
  have hne : B ≠ [] := by
    intro hB
    rw [hB] at hend
    cases hend
  have hpart1 : ∀ pm : List Nat → Option ICResponse × Bool,
      (runDATA m pm (dotStuff B ++ [46, 13, 10])).processedArg = some B := by
    intro pm
    have hrun := framer_roundtrip_aux m B.length B [] true le_rfl hne hend
      (by simpa using hsize) hfit
    rw [List.nil_append] at hrun
    unfold runDATA dotStuff
    rw [hrun]
    show (dataFinish m pm ⟨B, true, false⟩).1 = some B
    exact dataFinish_processed m pm ⟨B, true, false⟩ rfl hsize
  refine ⟨hpart1, fun hnd pm => ?_⟩
  have h1 := hpart1 pm
  rw [dotStuff_id B hnd.1] at h1
  exact h1

/-- Witness for the amended C3: a body whose only line starts with a
dot; the wire carries the doubled dot and the framer hands the original
body to `ProcessMail`. -/
theorem dotStuff_roundtrip_witness :
    (runDATA 100 (fun _ => (none, false))
      (dotStuff [46, 104, 13, 10] ++ [46, 13, 10])).processedArg =
      some [46, 104, 13, 10] :=
  (dotStuff_roundtrip 100 [46, 104, 13, 10] (by decide) (by decide) (by decide)).1 _

/-- C3 counterexample: the body used below is 4102 bytes, ends in CR LF
and is far below the 20 MiB default message-size limit, yet its single
4101-byte line overflows the 4096-byte read buffer. -/
def Bce : List Nat := List.replicate 4100 97 ++ [13, 10]

/-- C3 counterexample.  The claim quantifies over every body within the
message-size limit, but a body whose (stuffed) line exceeds the reader's
4096-byte buffer makes `ReadSlice` fail with `ErrBufferFull`, aborting
the session: `ProcessMail` is never invoked, so the round trip fails. -/
theorem roundtrip_fails_on_overlong_line :
    hasSuffixCRLF Bce = true ∧ Bce.length ≤ 20 * 1024 * 1024 ∧
    (runDATA (20 * 1024 * 1024) (fun _ => (none, false))
      (dotStuff Bce ++ [46, 13, 10])).processedArg = none := by
  have h46 : (46 : Nat) ∉ Bce := by
    intro h
    rcases List.mem_append.mp h with h1 | h1
    · rw [List.mem_replicate] at h1
      omega
    · simp at h1
  have hid : dotStuff Bce = Bce :=
    dotStuff_id Bce (hasDotAtLineStartAux_of_no_dot Bce true h46)
  have hwire : dotStuff Bce ++ [46, 13, 10] =
      List.replicate 4100 97 ++ ([13, 10] ++ [46, 13, 10]) := by
    rw [hid]
    unfold Bce
    rw [List.append_assoc]
  refine ⟨hasSuffixCRLF_append _, ?_, ?_⟩
  · unfold Bce
    rw [List.length_append, List.length_replicate]
    simp only [List.length_cons, List.length_nil]
    omega
  · obtain ⟨c, t, hc⟩ := chunkAux_fragment 4096 (List.replicate 4100 97)
      ([13, 10] ++ [46, 13, 10]) [] 0
      (by rw [List.mem_replicate]; omega) (by omega)
      (by rw [List.length_replicate]; omega)
    unfold runDATA chunkReads
    rw [hwire, hc]
    rfl

/-! ## Transaction reset -/

theorem isResetConn_reset (st : ConnState) : isResetConn st.reset :=
  ⟨rfl, rfl, rfl⟩

/-- Once the 354 reply has been sent, `defer c.reset()` is registered:
every exit of the body phase leaves the transaction reset. -/
theorem doDATA_entered_resets (m : Nat) (itp : ITPModel) (wire : List Nat)
    (st : ConnState) (h1 : st.inTransaction = true) (h2 : st.RecipientList ≠ []) :
    isResetConn (doDATA m itp true wire st).2 := by
  have hempty : st.RecipientList.isEmpty = false := by
    cases hrl : st.RecipientList
    · exact absurd hrl h2
    · rfl
  unfold doDATA
  rw [h1]
  simp only [Bool.not_true, Bool.false_eq_true, if_false]
  rw [hempty]
  simp only [Bool.false_eq_true, if_false, Bool.not_true]
  cases hrd : runDATA m itp.ProcessMail wire <;> exact isResetConn_reset st

/-- C5.  For every dispatched command sequence, the transaction state is
reset (no open transaction, recipients and reverse path cleared)
immediately after the HELO, EHLO, RSET and QUIT handlers return, and
after any DATA body phase that was entered (354 sent successfully)
completes — by success, oversize rejection, or read abort (the outcome
of the body phase is universally quantified through `wire` and `itp`). -/
theorem transaction_reset_after_handlers (p : InboundConnectionParameters)
    (m : Nat) (itp : ITPModel) (st : ConnState) (params : List Char)
    (wire : List Nat) :
    isResetConn (doHELO p st params).2 ∧ isResetConn (doEHLO p st params).2 ∧
    isResetConn (doRSET st params).2 ∧ isResetConn (doQUIT st params).2 ∧
    (st.inTransaction = true → st.RecipientList ≠ [] →
      isResetConn (doDATA m itp true wire st).2) :=
  ⟨isResetConn_reset st, isResetConn_reset st, isResetConn_reset st,
   isResetConn_reset st, fun h1 h2 => doDATA_entered_resets m itp wire st h1 h2⟩

/-- Witness for C5 at a concrete open transaction. -/
theorem transaction_reset_after_handlers_witness :
    isResetConn (doHELO defaultParams ⟨["c@d"], true, "a@b", 0⟩ []).2 ∧
    isResetConn (doDATA 100 DummyITP true [104, 105, 13, 10, 46, 13, 10]
      ⟨["c@d"], true, "a@b", 0⟩).2 := by
  have h := transaction_reset_after_handlers defaultParams 100 DummyITP
    ⟨["c@d"], true, "a@b", 0⟩ [] [104, 105, 13, 10, 46, 13, 10]
  exact ⟨h.1, h.2.2.2.2 rfl (by decide)⟩

/-- An ITP used by the C6 counterexample: `CheckRecipientAddress`
returns a non-nil Go error. -/
def itpRcptErr : ITPModel :=
  ⟨fun _ => (none, false), fun _ => (none, true), fun _ => (none, false)⟩

/-- C6 counterexample.  Two terminal error paths taken while a
transaction is open do *not* reset the transaction state before the
handler returns: an ITP hook returning a non-nil error during RCPT
(`return r, err` with no reset), and a transport failure while sending
the 354 reply (the `defer c.reset()` is registered only after that
`Send` succeeds).  In both cases the handler aborts with
`inTransaction` still true. -/
theorem rcpt_itp_error_leaves_transaction_open :
    (doRCPT itpRcptErr ⟨[], true, "a@b", 0⟩ "TO:<c@d>".data).1 = HResult.abort ∧
    (doRCPT itpRcptErr ⟨[], true, "a@b", 0⟩ "TO:<c@d>".data).2.inTransaction = true ∧
    (doDATA 100 DummyITP false [] ⟨["c@d"], true, "a@b", 0⟩).1 = HResult.abort ∧
    (doDATA 100 DummyITP false [] ⟨["c@d"], true, "a@b", 0⟩).2.inTransaction = true := by
  refine ⟨?_, ?_, ?_, ?_⟩ <;> decide

/-- A RCPT abort (ITP error) leaves the connection state unchanged. -/
theorem doRCPT_abort_state (itp : ITPModel) (st : ConnState) (params : List Char)
    (h : (doRCPT itp st params).1 = HResult.abort) :
    (doRCPT itp st params).2 = st := by
  revert h
  unfold doRCPT
  repeat' split
  all_goals intro h
  all_goals try rfl
  all_goals simp [rcptSuccess] at h

/-- A MAIL abort (ITP error) leaves the connection state unchanged. -/
theorem doMAIL_abort_state (itp : ITPModel) (st : ConnState) (params : List Char)
    (h : (doMAIL itp st params).1 = HResult.abort) :
    (doMAIL itp st params).2 = st := by
  revert h
  unfold doMAIL
  repeat' split
  all_goals intro h
  all_goals try rfl
  all_goals simp [mailSuccess] at h

/-- C6 amended.  Terminal error paths inside the DATA body phase (after
the 354 send succeeded) do reset the transaction; but the RCPT ITP-error
abort and the 354-send-failure abort return with the connection state
unchanged — in particular `inTransaction` stays true (the session then
terminates, so the stale state is never observed by another command). -/
theorem terminal_error_paths_amended (m : Nat) (itp : ITPModel) (wire : List Nat)
    (st : ConnState) (params : List Char) :
    (st.inTransaction = true → st.RecipientList ≠ [] →
      isResetConn (doDATA m itp true wire st).2) ∧
    ((doRCPT itp st params).1 = HResult.abort → (doRCPT itp st params).2 = st) ∧
    ((doMAIL itp st params).1 = HResult.abort → (doMAIL itp st params).2 = st) ∧
    (st.inTransaction = true → st.RecipientList ≠ [] →
      doDATA m itp false wire st = (HResult.abort, st)) := by
  refine ⟨fun h1 h2 => doDATA_entered_resets m itp wire st h1 h2,
    fun h => doRCPT_abort_state itp st params h,
    fun h => doMAIL_abort_state itp st params h,
    fun h1 h2 => ?_⟩
  have hempty : st.RecipientList.isEmpty = false := by
    cases hrl : st.RecipientList
    · exact absurd hrl h2
    · rfl
  unfold doDATA
  rw [h1]
  simp only [Bool.not_true, Bool.false_eq_true, if_false]
  rw [hempty]
  rfl

/-- Witness for the amended C6. -/
theorem terminal_error_paths_amended_witness :
    isResetConn (doDATA 100 itpRcptErr true [46, 13, 10] ⟨["c@d"], true, "a@b", 0⟩).2 ∧
    (doRCPT itpRcptErr ⟨["c@d"], true, "a@b", 0⟩ "TO:<x@y>".data).2 =
      ⟨["c@d"], true, "a@b", 0⟩ := by
  have h := terminal_error_paths_amended 100 itpRcptErr [46, 13, 10]
    ⟨["c@d"], true, "a@b", 0⟩ "TO:<x@y>".data
  exact ⟨h.1 rfl (by decide), h.2.1 (by decide)⟩

/-! ## Response writer flush policy -/

/-- C7 counterexample.  `Send` of a pipelineable response defers the
flush even when *no* input is buffered: the output stays in the write
buffer, nothing reaches the wire, and `needsFlush` is set — contrary to
the claim that the flush is only deferred when buffered input is also
waiting. -/
theorem send_defers_flush_with_empty_input :
    (Send ⟨[], [], 0, false⟩ ⟨[⟨250, "2.0.0 OK"⟩], false, true⟩).flushed = [] ∧
    (Send ⟨[], [], 0, false⟩ ⟨[⟨250, "2.0.0 OK"⟩], false, true⟩).outBuf ≠ [] ∧
    (Send ⟨[], [], 0, false⟩ ⟨[⟨250, "2.0.0 OK"⟩], false, true⟩).needsFlush = true := by
  refine ⟨rfl, ?_, rfl⟩
  decide

/-- C7 amended.  `Send` defers the flush exactly when the response's
`canPipeline` flag is set, regardless of buffered input, and flushes
otherwise; the next `Receive` flushes the deferred output iff the input
buffer is empty at that point, and otherwise leaves the writer state
unchanged. -/
theorem send_flush_policy (w : WireState) (r : ICResponse) :
    (r.canPipeline = true →
      Send w r = ⟨w.outBuf ++ formatResponse r, w.flushed, w.buffered, true⟩) ∧
    (r.canPipeline = false →
      Send w r = ⟨[], w.flushed ++ (w.outBuf ++ formatResponse r), w.buffered, false⟩) ∧
    (w.needsFlush = true → w.buffered = 0 →
      receiveFlushCheck w = ⟨[], w.flushed ++ w.outBuf, w.buffered, false⟩) ∧
    ((w.needsFlush = false ∨ w.buffered ≠ 0) → receiveFlushCheck w = w) := by
  refine ⟨fun hcp => ?_, fun hcp => ?_, fun hnf hb => ?_, fun hor => ?_⟩
  · unfold Send
    rw [hcp]
    rfl
  · unfold Send
    rw [hcp]
    rfl
  · unfold receiveFlushCheck
    rw [if_pos (by rw [hnf, hb]; rfl)]
  · unfold receiveFlushCheck
    rcases hor with h | h
    · rw [if_neg (by rw [h]; simp)]
    · rw [if_neg (by simp [h])]

/-- Witness for the amended C7: a deferred send with input pending, and
a deferred flush executed by the next receive on an empty buffer. -/
theorem send_flush_policy_witness :
    Send ⟨["a"], [], 3, false⟩ ⟨[⟨250, "2.0.0 OK"⟩], false, true⟩ =
      ⟨["a"] ++ formatResponse ⟨[⟨250, "2.0.0 OK"⟩], false, true⟩, [], 3, true⟩ ∧
    receiveFlushCheck ⟨["x"], [], 0, true⟩ = ⟨[], [] ++ ["x"], 0, false⟩ := by
  have h1 := send_flush_policy ⟨["a"], [], 3, false⟩ ⟨[⟨250, "2.0.0 OK"⟩], false, true⟩
  have h2 := send_flush_policy ⟨["x"], [], 0, true⟩ ⟨[], false, false⟩
  exact ⟨h1.1 rfl, h2.2.2.1 rfl rfl⟩

/-! ## Unknown command policy -/

/-- The unknown command used by the C8 session run. -/
def badCmd : List Char := "XYZZY".data

/-- The environment of the C8 session run: default parameters and the
accept-everything `DummyITP`. -/
def env0 : Env := ⟨defaultParams, DummyITP, true, []⟩

/-- C8.  A dispatched command whose (upper-cased) verb is not in the
verb table replies `500 5.5.2 Error: command unknown` and increments the
unrecognised-command counter; the reply is final exactly when the
incremented counter exceeds 20; and a fresh session fed a stream of
unknown commands sends 20 non-final 500s and closes on the 21st,
processing no further input. -/
theorem unknown_command_policy (env : Env) (st : ConnState) (buf : List Char)
    (h : lookupVerb ((splitFirstSpace (trimCRLF buf)).1.map asciiUpper) = none) :
    Process env st buf =
      (.ok ⟨[⟨500, "5.5.2 Error: command unknown"⟩],
        decide (maxUnrecognisedCommands < st.unrecognisedCommands + 1), false⟩,
       { st with unrecognisedCommands := st.unrecognisedCommands + 1 }) ∧
    (st.unrecognisedCommands < 20 →
      (Process env st buf).1 =
        HResult.ok ⟨[⟨500, "5.5.2 Error: command unknown"⟩], false, false⟩) ∧
    (st.unrecognisedCommands = 20 →
      (Process env st buf).1 =
        HResult.ok ⟨[⟨500, "5.5.2 Error: command unknown"⟩], true, false⟩) ∧
    (runCmds env0 connInit (List.replicate 25 badCmd)).1.map ICResponse.final =
      List.replicate 20 false ++ [true] := by
  have hmain : Process env st buf =
      (.ok ⟨[⟨500, "5.5.2 Error: command unknown"⟩],
        decide (maxUnrecognisedCommands < st.unrecognisedCommands + 1), false⟩,
       { st with unrecognisedCommands := st.unrecognisedCommands + 1 }) := by
    unfold Process
    rw [h]
  refine ⟨hmain, fun hlt => ?_, fun heq => ?_, by decide⟩
  · rw [hmain]
    simp only []
    have : decide (maxUnrecognisedCommands < st.unrecognisedCommands + 1) = false := by
      apply decide_eq_false
      unfold maxUnrecognisedCommands
      omega
    rw [this]
  · rw [hmain]
    simp only []
    have : decide (maxUnrecognisedCommands < st.unrecognisedCommands + 1) = true := by
      apply decide_eq_true
      unfold maxUnrecognisedCommands
      omega
    rw [this]

/-- Witness for C8: the first unknown command of a fresh session. -/
theorem unknown_command_policy_witness :
    Process env0 connInit "XYZZY PLUGH".data =
      (.ok ⟨[⟨500, "5.5.2 Error: command unknown"⟩], false, false⟩,
       { connInit with unrecognisedCommands := 1 }) := by
  have h := unknown_command_policy env0 connInit "XYZZY PLUGH".data (by decide)
  rw [h.1]
  decide

/-! ## Address canonicalisation -/

theorem splitAtChar_eq_none (ch : Char) :
    ∀ l : List Char, splitAtChar ch l = none ↔ ch ∉ l := by
  intro l
  induction l with
  | nil => simp [splitAtChar]
  | cons a rest ih =>
    unfold splitAtChar
    by_cases ha : a = ch
    · subst ha
      simp
    · rw [if_neg ha]
      constructor
      · intro h
        rw [Option.map_eq_none'] at h
        intro hmem
        rcases List.mem_cons.mp hmem with hm | hm
        · exact ha hm.symm
        · exact (ih.mp h) hm
      · intro hmem
        rw [Option.map_eq_none', ih]
        intro hm
        exact hmem (List.mem_cons_of_mem _ hm)

theorem splitAtChar_eq_some (ch : Char) :
    ∀ (l x y : List Char), splitAtChar ch l = some (x, y) →
    l = x ++ ch :: y ∧ ch ∉ x := by
  intro l
  induction l with
  | nil => intro x y h; cases h
  | cons a rest ih =>
    intro x y h
    unfold splitAtChar at h
    by_cases ha : a = ch
    · subst ha
      rw [if_pos rfl] at h
      simp only [Option.some.injEq, Prod.mk.injEq] at h
      obtain ⟨hx, hy⟩ := h
      subst hx
      subst hy
      exact ⟨rfl, by simp⟩
    · rw [if_neg ha] at h
      rcases hsp : splitAtChar ch rest with _ | ⟨p1, p2⟩
      · rw [hsp] at h
        cases h
      · rw [hsp] at h
        simp only [Option.map_some', Option.some.injEq, Prod.mk.injEq] at h
        obtain ⟨hx, hy⟩ := h
        obtain ⟨hrest, hnm⟩ := ih p1 p2 hsp
        subst hx
        subst hy
        refine ⟨by rw [hrest, List.cons_append], ?_⟩
        intro hm
        rcases List.mem_cons.mp hm with hm1 | hm1
        · exact ha hm1.symm
        · exact hnm hm1

theorem splitAtChar_append (ch : Char) :
    ∀ (x y : List Char), ch ∉ x →
    splitAtChar ch (x ++ ch :: y) = some (x, y) := by
  intro x
  induction x with
  | nil =>
    intro y _
    rw [List.nil_append]
    unfold splitAtChar
    rw [if_pos rfl]
  | cons a t ih =>
    intro y hmem
    have ha : a ≠ ch := fun hc => hmem (by simp [hc])
    rw [List.cons_append]
    unfold splitAtChar
    rw [if_neg ha, ih y (fun hm => hmem (List.mem_cons_of_mem _ hm))]
    rfl

/-- C9.  Recipient canonicalisation: (i)/(ii) every string admitting a
decomposition `local@domain` or `route:local@domain` (route free of ':',
local and domain non-empty and free of '@' and ':' — the anchored
regexp `([^:]+:)?([^@:]+)@([^@:]+)`) canonicalises to
`local@lowercase(domain)` with the route stripped; (iii) conversely
canonicalisation succeeds only on such strings and returns exactly that
form; (iv) a RCPT command whose address fails canonicalisation gets the
`550 5.1.3 Error: bad envelope recepient address format` reply and the
recipient list is unchanged. -/
theorem parseLocalAtDomain_eq_some (b c : List Char) (hb : b ≠ []) (hc : c ≠ [])
    (hab : '@' ∉ b) (hcb : ':' ∉ b) (hac : '@' ∉ c) (hcc : ':' ∉ c) :
    parseLocalAtDomain (b ++ '@' :: c) = some (b, c) := by
  unfold parseLocalAtDomain
  rw [splitAtChar_append '@' b c hab]
  show (if b ≠ [] ∧ c ≠ [] ∧ '@' ∉ c ∧ ':' ∉ b ∧ ':' ∉ c then some (b, c) else none) =
    some (b, c)
  rw [if_pos ⟨hb, hc, hac, hcb, hcc⟩]

theorem parseLocalAtDomain_some_inv (l b c : List Char)
    (h : parseLocalAtDomain l = some (b, c)) :
    l = b ++ '@' :: c ∧ b ≠ [] ∧ c ≠ [] ∧ '@' ∉ b ∧ ':' ∉ b ∧ '@' ∉ c ∧ ':' ∉ c := by
  unfold parseLocalAtDomain at h
  rcases hsp : splitAtChar '@' l with _ | ⟨b0, c0⟩ <;> rw [hsp] at h
  · cases h
  · have h2 : (if b0 ≠ [] ∧ c0 ≠ [] ∧ '@' ∉ c0 ∧ ':' ∉ b0 ∧ ':' ∉ c0 then
        some (b0, c0) else none) = some (b, c) := h
    by_cases hcond : b0 ≠ [] ∧ c0 ≠ [] ∧ '@' ∉ c0 ∧ ':' ∉ b0 ∧ ':' ∉ c0
    · rw [if_pos hcond] at h2
      simp only [Option.some.injEq, Prod.mk.injEq] at h2
      obtain ⟨hb0, hc0⟩ := h2
      rw [hb0, hc0] at hsp hcond
      obtain ⟨hl, hnab⟩ := splitAtChar_eq_some '@' l b c hsp
      exact ⟨hl, hcond.1, hcond.2.1, hnab, hcond.2.2.2.1, hcond.2.2.1, hcond.2.2.2.2⟩
    · rw [if_neg hcond] at h2
      cases h2

theorem canonTail_eq (b c : List Char) (hb : b ≠ []) (hc : c ≠ [])
    (hab : '@' ∉ b) (hcb : ':' ∉ b) (hac : '@' ∉ c) (hcc : ':' ∉ c) :
    canonTail (b ++ '@' :: c) = some (String.mk (b ++ '@' :: c.map asciiLower)) := by
  unfold canonTail
  rw [parseLocalAtDomain_eq_some b c hb hc hab hcb hac hcc]

theorem canonTail_some_inv (l : List Char) (r : String) (h : canonTail l = some r) :
    ∃ b c : List Char, l = b ++ '@' :: c ∧ b ≠ [] ∧ c ≠ [] ∧ '@' ∉ b ∧ ':' ∉ b ∧
      '@' ∉ c ∧ ':' ∉ c ∧ r = String.mk (b ++ '@' :: c.map asciiLower) := by
  unfold canonTail at h
  rcases hp : parseLocalAtDomain l with _ | ⟨b, c⟩ <;> rw [hp] at h
  · cases h
  · simp only [Option.some.injEq] at h
    obtain ⟨hl, h2, h3, h4, h5, h6, h7⟩ := parseLocalAtDomain_some_inv l b c hp
    exact ⟨b, c, hl, h2, h3, h4, h5, h6, h7, h.symm⟩

theorem canonicalise_rcpt_policy (s : String) :
    (∀ b c : List Char, b ≠ [] → c ≠ [] → '@' ∉ b → ':' ∉ b → '@' ∉ c → ':' ∉ c →
      s.data = b ++ '@' :: c →
      CanonicaliseInboundAddress s = some (String.mk (b ++ '@' :: c.map asciiLower))) ∧
    (∀ a b c : List Char, a ≠ [] → ':' ∉ a → b ≠ [] → c ≠ [] → '@' ∉ b → ':' ∉ b →
      '@' ∉ c → ':' ∉ c → s.data = a ++ ':' :: (b ++ '@' :: c) →
      CanonicaliseInboundAddress s = some (String.mk (b ++ '@' :: c.map asciiLower))) ∧
    (∀ r : String, CanonicaliseInboundAddress s = some r →
      ∃ b c : List Char, b ≠ [] ∧ c ≠ [] ∧ '@' ∉ b ∧ ':' ∉ b ∧ '@' ∉ c ∧ ':' ∉ c ∧
        (s.data = b ++ '@' :: c ∨
          ∃ a : List Char, a ≠ [] ∧ ':' ∉ a ∧ s.data = a ++ ':' :: (b ++ '@' :: c)) ∧
        r = String.mk (b ++ '@' :: c.map asciiLower)) ∧
    (∀ (itp : ITPModel) (st : ConnState) (params aArg : List Char),
      st.inTransaction = true → parseToArg params = some aArg →
      CanonicaliseInboundAddress (String.mk aArg) = none →
      doRCPT itp st params =
        (.ok ⟨[⟨550, "5.1.3 Error: bad envelope recepient address format"⟩],
          false, false⟩, st)) := by
  refine ⟨?_, ?_, ?_, ?_⟩
  · intro b c hb hc hab hcb hac hcc hdata
    have hnc : ':' ∉ b ++ '@' :: c := by
      intro hm
      rcases List.mem_append.mp hm with hm1 | hm1
      · exact hcb hm1
      · rcases List.mem_cons.mp hm1 with hm2 | hm2
        · cases hm2
        · exact hcc hm2
    unfold CanonicaliseInboundAddress
    rw [hdata, (splitAtChar_eq_none ':' _).mpr hnc]
    show canonTail (b ++ '@' :: c) = some (String.mk (b ++ '@' :: c.map asciiLower))
    exact canonTail_eq b c hb hc hab hcb hac hcc
  · intro a b c ha hca hb hc hab hcb hac hcc hdata
    unfold CanonicaliseInboundAddress
    rw [hdata, splitAtChar_append ':' a _ hca]
    show (if a = [] then none else canonTail (b ++ '@' :: c)) =
      some (String.mk (b ++ '@' :: c.map asciiLower))
    rw [if_neg ha]
    exact canonTail_eq b c hb hc hab hcb hac hcc
  · intro r h
    unfold CanonicaliseInboundAddress at h
    rcases hsp : splitAtChar ':' s.data with _ | ⟨a, rest⟩ <;> rw [hsp] at h
    · have h2 : canonTail s.data = some r := h
      obtain ⟨b, c, hl, h3, h4, h5, h6, h7, h8, h9⟩ := canonTail_some_inv s.data r h2
      exact ⟨b, c, h3, h4, h5, h6, h7, h8, Or.inl hl, h9⟩
    · have h2 : (if a = [] then none else canonTail rest) = some r := h
      by_cases haa : a = []
      · rw [if_pos haa] at h2
        cases h2
      · rw [if_neg haa] at h2
        obtain ⟨b, c, hl, h3, h4, h5, h6, h7, h8, h9⟩ := canonTail_some_inv rest r h2
        obtain ⟨hdata, hnca⟩ := splitAtChar_eq_some ':' s.data a rest hsp
        refine ⟨b, c, h3, h4, h5, h6, h7, h8, Or.inr ⟨a, haa, hnca, ?_⟩, h9⟩
        rw [hdata, hl]
  · intro itp st params aArg hin hparse hcanon
    unfold doRCPT
    rw [hin]
    simp only [Bool.not_true, Bool.false_eq_true, if_false]
    split
    · rename_i heq
      rw [hparse] at heq
      cases heq
    · rename_i a heq
      rw [hparse] at heq
      injection heq with heq
      subst heq
      split
      · rfl
      · rename_i rc heq2
        rw [hcanon] at heq2
        cases heq2

/-- Witness for C9: a routed mixed-case address canonicalises with the
route stripped and the domain lower-cased; an address with no domain
gets the 550 format reply on RCPT with no recipient added. -/
theorem canonicalise_rcpt_policy_witness :
    CanonicaliseInboundAddress "Route:User@ExAmple.COM" = some "User@example.com" ∧
    doRCPT DummyITP ⟨[], true, "", 0⟩ "TO:<bad>".data =
      (.ok ⟨[⟨550, "5.1.3 Error: bad envelope recepient address format"⟩],
        false, false⟩, ⟨[], true, "", 0⟩) := by
  have h := canonicalise_rcpt_policy "Route:User@ExAmple.COM"
  constructor
  · have h2 := h.2.1 "Route".data "User".data "ExAmple.COM".data (by decide) (by decide)
      (by decide) (by decide) (by decide) (by decide) (by decide) (by decide) (by decide)
    rw [h2]
    decide
  · exact h.2.2.2 DummyITP ⟨[], true, "", 0⟩ "TO:<bad>".data "bad".data rfl
      (by decide) (by decide)

/-- C10.  A non-nil, non-error-coded response (first line's code outside
400..599, or no lines at all) returned by `CheckFromAddress` or
`CheckRecipientAddress` together with a nil error is discarded: the
handler proceeds exactly as on a `(nil, nil)` return, sending the
standard 250 success reply and updating the transaction state; whereas a
non-nil response from `ProcessMail` (with nil error and the body within
the size limit) is used verbatim, error-coded or not. -/
theorem itp_response_propagation (itp : ITPModel) (st : ConnState)
    (params aArg : List Char) (r : ICResponse) :
    (st.inTransaction = false → parseFromArg params = some aArg →
      itp.CheckFromAddress (String.mk aArg) = (some r, false) → r.IsError = false →
      doMAIL itp st params = mailSuccess st (String.mk aArg)) ∧
    (st.inTransaction = true → parseToArg params = some aArg →
      ∀ canon : String, CanonicaliseInboundAddress (String.mk aArg) = some canon →
      itp.CheckRecipientAddress canon = (some r, false) → r.IsError = false →
      doRCPT itp st params = rcptSuccess st canon) ∧
    (∀ (m : Nat) (pm : List Nat → Option ICResponse × Bool) (stE : FramerState),
      stE.oversize = false → stE.body.length ≤ m → pm stE.body = (some r, false) →
      dataFinish m pm stE = (some stE.body, HResult.ok r)) := by
  refine ⟨fun hin hparse hitp hne => ?_, fun hin hparse canon hcanon hitp hne => ?_,
    fun m pm stE hov hlen hpm => ?_⟩
  · unfold doMAIL
    rw [hin]
    simp only [Bool.false_eq_true, if_false]
    split
    · rename_i heq
      rw [hparse] at heq
      cases heq
    · rename_i a heq
      rw [hparse] at heq
      injection heq with heq
      subst heq
      rw [hitp]
      show (if r.IsError = true then (HResult.ok r, st)
        else mailSuccess st (String.mk aArg)) = mailSuccess st (String.mk aArg)
      rw [hne]
      simp
  · unfold doRCPT
    rw [hin]
    simp only [Bool.not_true, Bool.false_eq_true, if_false]
    split
    · rename_i heq
      rw [hparse] at heq
      cases heq
    · rename_i a heq
      rw [hparse] at heq
      injection heq with heq
      subst heq
      split
      · rename_i heq2
        rw [hcanon] at heq2
        cases heq2
      · rename_i rc heq2
        rw [hcanon] at heq2
        injection heq2 with heq2
        subst heq2
        rw [hitp]
        show (if r.IsError = true then (HResult.ok r, st)
          else rcptSuccess st canon) = rcptSuccess st canon
        rw [hne]
        simp
  · unfold dataFinish
    rw [hov]
    have hd : decide (m < stE.body.length) = false := decide_eq_false (by omega)
    rw [hd]
    simp only [Bool.or_false, Bool.false_eq_true, if_false]
    rw [hpm]

/-- An ITP whose MAIL/RCPT hooks return a non-error 200 response and
whose `ProcessMail` returns a custom reply; used to witness C10. -/
def itpOddResp : ITPModel :=
  ⟨fun _ => (some ⟨[⟨200, "weird"⟩], false, false⟩, false),
   fun _ => (some ⟨[⟨200, "weird"⟩], false, false⟩, false),
   fun _ => (some ⟨[⟨299, "custom queued"⟩], false, false⟩, false)⟩

/-- Witness for C10: the 200-coded MAIL response is discarded (standard
250 flow), and a custom `ProcessMail` reply is propagated verbatim. -/
theorem itp_response_propagation_witness :
    doMAIL itpOddResp connInit "FROM:<a@b>".data = mailSuccess connInit "a@b" ∧
    dataFinish 100 (fun _ => (some ⟨[⟨299, "custom queued"⟩], false, false⟩, false))
      ⟨[104, 105], true, false⟩ =
      (some [104, 105], HResult.ok ⟨[⟨299, "custom queued"⟩], false, false⟩) := by
  constructor
  · have h := itp_response_propagation itpOddResp connInit "FROM:<a@b>".data "a@b".data
      ⟨[⟨200, "weird"⟩], false, false⟩
    have h1 := h.1 rfl (by decide) rfl (by decide)
    rw [h1]
  · have h := itp_response_propagation itpOddResp connInit "FROM:<a@b>".data "a@b".data
      ⟨[⟨299, "custom queued"⟩], false, false⟩
    exact h.2.2 100 _ ⟨[104, 105], true, false⟩ rfl (by decide) rfl
